import Mathlib

/-!
# GstStreamCollection

A shallow embedding of `gst/gststreamcollection.c`: the ordered registry of
top-level streams, the variant lists hanging off each entry, and the lookups
over both.

Pointers to stream objects are addresses (`Nat`, `0` is `NULL`), so that the
pointer comparison made by `gst_stream_collection_is_variant_for` stays a
comparison of addresses and never one of stream attributes. The `GQueue`
and `GList` containers of GLib are lists: `g_queue_push_tail` and
`g_list_append` add at the end, `g_queue_peek_nth` indexes, and
`g_queue_find_custom` returns the first link on which the comparison
function yields `0`. A `GList *` that is `NULL` is the empty list.
-/

namespace Gst

/-! ## Streams -/

/-- A `GstStream *`: the address of a stream object, `0` for `NULL`. -/
abbrev GstStreamPtr := Nat

/-- The null pointer. -/
abbrev NULL : GstStreamPtr := 0

/-- The stream objects themselves live in `gststreams.c`; the collection reads
three things from a stream pointer, taken here as parameters: the instance
type check behind `GST_IS_STREAM`, `gst_stream_get_stream_id` (a
`const gchar *`, `none` for `NULL`) and `gst_stream_get_stream_type` (a flags
value). They are fixed over the life of a collection. -/
structure GstStreams where
  is_stream : GstStreamPtr → Bool
  get_stream_id : GstStreamPtr → Option String
  get_stream_type : GstStreamPtr → Nat

/-- The check `GST_IS_STREAM (stream)`: the instance check is false on `NULL`. -/
def GST_IS_STREAM (env : GstStreams) (stream : GstStreamPtr) : Bool :=
  stream != NULL && env.is_stream stream

/-- The accessor `gst_stream_get_stream_id (stream)`. -/
def gst_stream_get_stream_id (env : GstStreams) (stream : GstStreamPtr) : Option String :=
  env.get_stream_id stream

/-- The accessor `gst_stream_get_stream_type (stream)`. -/
def gst_stream_get_stream_type (env : GstStreams) (stream : GstStreamPtr) : Nat :=
  env.get_stream_type stream

/-! ## GLib helpers -/

/-- The libc `strcmp` on the characters of two strings, reduced to its sign. -/
def strcmp : List Char → List Char → Int
  | [], [] => 0
  | [], _ :: _ => -1
  | _ :: _, [] => 1
  | a :: as, b :: bs =>
    if a = b then strcmp as bs else if a.toNat < b.toNat then -1 else 1

/-- GLib `g_strcmp0 (str1, str2)`: `strcmp` that accepts `NULL`, which sorts before
every string and equals itself. -/
def g_strcmp0 (str1 str2 : Option String) : Int :=
  match str1, str2 with
  | none, none => 0
  | none, some _ => -1
  | some _, none => 1
  | some a, some b => strcmp a.data b.data

/-- GLib `g_queue_find_custom (queue, data, func)`: the position of the first link
whose element makes `func (element, data)` return `0`, `none` when there is
no such link (the C function returns `NULL`). -/
def g_queue_find_custom {α β : Type} (queue : List α) (data : β) (func : α → β → Int) :
    Option Nat :=
  match queue with
  | [] => none
  | a :: rest =>
    if func a data = 0 then some 0
    else (g_queue_find_custom rest data func).map (· + 1)

/-- GLib `g_queue_peek_nth (queue, n)`: the element at position `n`, `none` (the C
`NULL`) when `n` is not below the length. -/
def g_queue_peek_nth {α : Type} (queue : List α) (n : Nat) : Option α :=
  queue[n]?

/-- GLib `g_queue_get_length (queue)`. The counter is a `guint`; the queues
modelled are those with fewer than `2^32` links, whose length it holds. -/
def g_queue_get_length {α : Type} (queue : List α) : Nat :=
  queue.length

/-- GLib `g_queue_push_tail (queue, data)`. -/
def g_queue_push_tail {α : Type} (queue : List α) (data : α) : List α :=
  queue ++ [data]

/-- GLib `g_list_append (list, data)`. -/
def g_list_append {α : Type} (list : List α) (data : α) : List α :=
  list ++ [data]

/-! ## The collection -/

/-- The `struct _CollectionStream`: one top-level member. -/
structure CollectionStream where
  /-- the member stream -/
  stream : GstStreamPtr
  /-- cached stream id -/
  stream_id : Option String
  /-- the variants, in the order they were added -/
  variants : List GstStreamPtr
  /-- whether the stream has (or had) variant streams -/
  has_variant : Bool
  deriving DecidableEq

/-- The collection object: `upstream_id`, the private queue `streams`, and the
`proxy_stream_notify_cb` handlers connected with this collection as user data,
each recorded by the stream whose `notify` signal it is connected to. -/
structure GstStreamCollection where
  upstream_id : Option String
  streams : List CollectionStream
  notify_handlers : List GstStreamPtr
  deriving DecidableEq

/-- The instance initialiser `gst_stream_collection_init`: the zeroed instance with an empty queue. -/
def gst_stream_collection_init : GstStreamCollection :=
  { upstream_id := none, streams := [], notify_handlers := [] }

/-- The setter `gst_stream_collection_set_upstream_id`: returns without a change when an id
is already stored, otherwise stores a copy of the given id (if any). -/
def gst_stream_collection_set_upstream_id (collection : GstStreamCollection)
    (upstream_id : Option String) : GstStreamCollection :=
  if collection.upstream_id ≠ none then collection
  else
    match upstream_id with
    | some u => { collection with upstream_id := some u }
    | none => collection

/-- The constructor `gst_stream_collection_new (upstream_id)`: `g_object_new` with the
construct property `upstream-id`. -/
def gst_stream_collection_new (upstream_id : Option String) : GstStreamCollection :=
  gst_stream_collection_set_upstream_id gst_stream_collection_init upstream_id

/-- The accessor `gst_stream_collection_get_upstream_id`. -/
def gst_stream_collection_get_upstream_id (collection : GstStreamCollection) :
    Option String :=
  collection.upstream_id

/-- The function `gst_stream_collection_add_stream`: the returned boolean and the collection
afterwards. -/
def gst_stream_collection_add_stream (env : GstStreams)
    (collection : GstStreamCollection) (stream : GstStreamPtr) :
    Bool × GstStreamCollection :=
  if GST_IS_STREAM env stream = false then (false, collection)
  else
    let cstream : CollectionStream :=
      { stream := stream
        stream_id := gst_stream_get_stream_id env stream
        variants := []
        has_variant := false }
    (true,
      { collection with
        streams := g_queue_push_tail collection.streams cstream
        notify_handlers := collection.notify_handlers ++ [stream] })

/-- The function `gst_stream_collection_get_size`. -/
def gst_stream_collection_get_size (collection : GstStreamCollection) : Nat :=
  g_queue_get_length collection.streams

/-- The function `gst_stream_collection_get_stream`: the stream at `index`, `NULL` when the
queue has no such position. -/
def gst_stream_collection_get_stream (collection : GstStreamCollection) (index : Nat) :
    GstStreamPtr :=
  match g_queue_peek_nth collection.streams index with
  | some cstream => cstream.stream
  | none => NULL

/-- The comparison `_compare_cstream` handed to `g_queue_find_custom`. -/
def _compare_cstream (cs1 : CollectionStream) (stream_id : Option String) : Int :=
  g_strcmp0 cs1.stream_id stream_id

/-- The function `gst_stream_collection_add_variant`: the returned boolean and the collection
afterwards. -/
def gst_stream_collection_add_variant (env : GstStreams)
    (collection : GstStreamCollection) (stream_id : Option String)
    (variant_stream : GstStreamPtr) : Bool × GstStreamCollection :=
  if stream_id = none then (false, collection)
  else if variant_stream = NULL then (false, collection)
  else
    match g_queue_find_custom collection.streams stream_id _compare_cstream with
    | none => (false, collection)
    | some i =>
      match collection.streams[i]? with
      | none => (false, collection)
      | some cstream =>
        if gst_stream_get_stream_type env cstream.stream ≠
            gst_stream_get_stream_type env variant_stream then
          (false, collection)
        else
          (true,
            { collection with
              streams := collection.streams.set i
                { cstream with
                  variants := g_list_append cstream.variants variant_stream
                  has_variant := true } })

/-- The function `gst_stream_collection_is_variant_for`. The loop over the variants compares
each element's address with `candidate`. -/
def gst_stream_collection_is_variant_for (collection : GstStreamCollection)
    (candidate : GstStreamPtr) (stream_id : Option String) : Bool :=
  if candidate = NULL then false
  else if stream_id = none then false
  else
    match g_queue_find_custom collection.streams stream_id _compare_cstream with
    | none => false
    | some i =>
      match collection.streams[i]? with
      | none => false
      | some cstream =>
        if cstream.variants = [] then false
        else cstream.variants.any (fun data => decide (data = candidate))

/-- The function `gst_stream_collection_get_variants`: the entry's variant list; `[]` is the
`NULL` the C function returns. -/
def gst_stream_collection_get_variants (collection : GstStreamCollection)
    (stream_id : Option String) : List GstStreamPtr :=
  if stream_id = none then []
  else
    match g_queue_find_custom collection.streams stream_id _compare_cstream with
    | none => []
    | some i =>
      match collection.streams[i]? with
      | none => []
      | some cstream => cstream.variants

/-- The comparison `_compare_variant_id`: `0` when some variant of `cs` has the given id,
`-1` otherwise. -/
def _compare_variant_id (env : GstStreams) (cs : CollectionStream)
    (stream_id : Option String) : Int :=
  if cs.variants = [] then -1
  else if cs.variants.any
      (fun data => decide (g_strcmp0 (gst_stream_get_stream_id env data) stream_id = 0))
    then 0
  else -1

/-- The function `gst_stream_collection_get_variant_of`: the cached id of the first entry
holding a variant with the given id, `none` for `NULL`. -/
def gst_stream_collection_get_variant_of (env : GstStreams)
    (collection : GstStreamCollection) (stream_id : Option String) : Option String :=
  if stream_id = none then none
  else
    match g_queue_find_custom collection.streams stream_id (_compare_variant_id env) with
    | none => none
    | some i =>
      match collection.streams[i]? with
      | none => none
      | some cstream => cstream.stream_id

/-- The collections a program can hold: built by `gst_stream_collection_new` and
changed only through the property setter, `gst_stream_collection_add_stream`
and `gst_stream_collection_add_variant`, with any arguments. -/
inductive Reachable (env : GstStreams) : GstStreamCollection → Prop
  | new (upstream_id : Option String) :
      Reachable env (gst_stream_collection_new upstream_id)
  | set_upstream_id (c : GstStreamCollection) (upstream_id : Option String) :
      Reachable env c → Reachable env (gst_stream_collection_set_upstream_id c upstream_id)
  | add_stream (c : GstStreamCollection) (stream : GstStreamPtr) :
      Reachable env c → Reachable env (gst_stream_collection_add_stream env c stream).2
  | add_variant (c : GstStreamCollection) (stream_id : Option String)
      (variant_stream : GstStreamPtr) :
      Reachable env c →
      Reachable env (gst_stream_collection_add_variant env c stream_id variant_stream).2

/-- The streams of the unit test `test_collection_variants`, by address:
`1` astream1, `2` astream2, `3` vstream, `4` vstream1, `5` vstream2, and at
address `6` one more stream object created with the id and type of vstream1;
audio is the flag `2`, video the flag `4`, and `1` is the unknown type. -/
def testStreams : GstStreams where
  is_stream := fun p => decide (1 ≤ p ∧ p ≤ 6)
  get_stream_id := fun p =>
    match p with
    | 1 => some "astream1"
    | 2 => some "astream2"
    | 3 => some "vstream"
    | 4 => some "vstream1"
    | 5 => some "vstream2"
    | 6 => some "vstream1"
    | _ => none
  get_stream_type := fun p =>
    match p with
    | 1 => 2
    | 2 => 2
    | 3 => 4
    | 4 => 4
    | 5 => 4
    | 6 => 4
    | _ => 1

/-- The collection of `test_collection_variants` after its three
`add_stream` calls. -/
def testCollection : GstStreamCollection :=
  (gst_stream_collection_add_stream testStreams
    (gst_stream_collection_add_stream testStreams
      (gst_stream_collection_add_stream testStreams
        (gst_stream_collection_new (some "upstream-id")) 1).2 2).2 3).2


/-! ## Notification relay and teardown -/

/-- One emission of the collection signal `stream-notify`: the detail it is
tagged with (the string of the detail quark) and the two arguments handed to
the observers, the stream and the name of the changed property. -/
structure StreamNotify where
  detail : String
  stream : GstStreamPtr
  pspec_name : String
  deriving DecidableEq

/-- The callback `proxy_stream_notify_cb (stream, pspec, collection)`: one
`g_signal_emit` of `stream-notify` on the collection, with the detail
`g_quark_from_string (pspec->name)` and the arguments `stream`, `pspec`. -/
def proxy_stream_notify_cb (stream : GstStreamPtr) (pspec_name : String) : StreamNotify :=
  { detail := pspec_name, stream := stream, pspec_name := pspec_name }

/-- A `notify` emission of `stream` for the property `pspec_name`, as GObject
dispatches it: every handler connected to that stream runs once, in the order
of connection. The result lists the `stream-notify` emissions made by the
handlers that belong to this collection. -/
def stream_notify (collection : GstStreamCollection) (stream : GstStreamPtr)
    (pspec_name : String) : List StreamNotify :=
  (collection.notify_handlers.filter (fun h => decide (h = stream))).map
    (fun h => proxy_stream_notify_cb h pspec_name)

/-- The helper `release_gst_stream (cstream, collection)`:
`g_signal_handlers_disconnect_by_func` removes every handler on the entry's
stream that has `proxy_stream_notify_cb` as function and this collection as
data; the references to the stream and to its variants are dropped. -/
def release_gst_stream (cstream : CollectionStream) (collection : GstStreamCollection) :
    GstStreamCollection :=
  { collection with
    notify_handlers :=
      collection.notify_handlers.filter (fun h => decide (h ≠ cstream.stream)) }

/-- The teardown `gst_stream_collection_dispose`: the upstream id is freed and
set to `NULL`, `release_gst_stream` runs on every entry from the head of the
queue on, and the queue is cleared. -/
def gst_stream_collection_dispose (collection : GstStreamCollection) :
    GstStreamCollection :=
  let released := collection.streams.foldl (fun c cstream => release_gst_stream cstream c)
    { collection with upstream_id := none }
  { released with streams := [] }

/-- The calls that change a collection between construction and teardown. -/
inductive CollectionCall where
  | set_upstream_id (upstream_id : Option String)
  | add_stream (stream : GstStreamPtr)
  | add_variant (stream_id : Option String) (variant_stream : GstStreamPtr)

/-- The collection after one call. -/
def apply_call (env : GstStreams) (collection : GstStreamCollection) :
    CollectionCall → GstStreamCollection
  | .set_upstream_id upstream_id =>
    gst_stream_collection_set_upstream_id collection upstream_id
  | .add_stream stream => (gst_stream_collection_add_stream env collection stream).2
  | .add_variant stream_id variant_stream =>
    (gst_stream_collection_add_variant env collection stream_id variant_stream).2

/-- The collection after a sequence of calls, made in order. -/
def apply_calls (env : GstStreams) (collection : GstStreamCollection)
    (calls : List CollectionCall) : GstStreamCollection :=
  calls.foldl (apply_call env) collection

/-- The collection of `test_collection_variants` after vstream1 and vstream2
were added as variants of vstream. -/
def testCollectionVariants : GstStreamCollection :=
  (gst_stream_collection_add_variant testStreams
    (gst_stream_collection_add_variant testStreams testCollection
      (some "vstream") 4).2 (some "vstream") 5).2

/-- Streams for the duplicate-identifier scenario, by address: `1` an audio
stream and `2` a video stream that both have the identifier `dup`, `3` an
audio stream `var-a`, `4` a video stream `var-v`. -/
def dupStreams : GstStreams where
  is_stream := fun p => decide (1 ≤ p ∧ p ≤ 4)
  get_stream_id := fun p =>
    match p with
    | 1 => some "dup"
    | 2 => some "dup"
    | 3 => some "var-a"
    | 4 => some "var-v"
    | _ => none
  get_stream_type := fun p =>
    match p with
    | 1 => 2
    | 2 => 4
    | 3 => 2
    | 4 => 4
    | _ => 1

/-- A new collection to which the two `dup` streams were added, audio first. -/
def dupCollection : GstStreamCollection :=
  (gst_stream_collection_add_stream dupStreams
    (gst_stream_collection_add_stream dupStreams
      (gst_stream_collection_new none) 1).2 2).2

/-- Streams for the scenario in which the identifier is already taken, by
address: as in `dupStreams`, and at address `5` one more video stream with the
identifier `dup`. -/
def dupStreamsEarlier : GstStreams where
  is_stream := fun p => decide (1 ≤ p ∧ p ≤ 5)
  get_stream_id := fun p =>
    match p with
    | 1 => some "dup"
    | 2 => some "dup"
    | 3 => some "var-a"
    | 4 => some "var-v"
    | 5 => some "dup"
    | _ => none
  get_stream_type := fun p =>
    match p with
    | 1 => 2
    | 2 => 4
    | 3 => 2
    | 4 => 4
    | 5 => 4
    | _ => 1

/-- A collection that holds the video stream `5` named `dup`, to which the audio
stream `1` and the video stream `2`, both named `dup`, were then added. -/
def dupCollectionEarlier : GstStreamCollection :=
  (gst_stream_collection_add_stream dupStreamsEarlier
    (gst_stream_collection_add_stream dupStreamsEarlier
      (gst_stream_collection_add_stream dupStreamsEarlier
        (gst_stream_collection_new none) 5).2 1).2 2).2

/-! ## The syslog shim -/

/-- The pieces of a string between the occurrences of a delimiter character,
the text after the last occurrence being the last piece. -/
def split_pieces (delimiter : Char) : List Char → List (List Char)
  | [] => [[]]
  | ch :: rest =>
    if ch = delimiter then [] :: split_pieces delimiter rest
    else
      match split_pieces delimiter rest with
      | [] => [[ch]]
      | piece :: pieces => (ch :: piece) :: pieces

/-- GLib `g_strsplit (string, delimiter, -1)` for a delimiter of one character:
the string is split completely, a piece is cut at each delimiter, and the
remainder after the last delimiter is added as the last piece only when the
string is not empty, so that the empty string gives the empty vector. -/
def g_strsplit (string : String) (delimiter : Char) : List String :=
  if string.data = [] then [] else (split_pieces delimiter string.data).map String.mk

/-- GLib `g_strv_length (str_array)`: the number of strings before the
terminating `NULL`. -/
def g_strv_length (str_array : List String) : Nat :=
  str_array.length

/-- The index `split_length - 1` that `gst_sys_debug_log` uses for a non-null
`file`, `split_length` being a `gint`. -/
def gst_sys_debug_log_index (file : String) : Int :=
  let split := g_strsplit file '/'
  let split_length : Int := g_strv_length split
  split_length - 1

/-- The `file_name` that `gst_sys_debug_log` reads for a non-null `file` in the
syslog dump path: `split[split_length - 1]`. The result is `none` when that
index is not a position of the vector, where the C code reads outside the
array. -/
def gst_sys_debug_log_file_name (file : String) : Option String :=
  let split := g_strsplit file '/'
  let index := gst_sys_debug_log_index file
  if 0 ≤ index then split[index.toNat]? else none

/-! ## String comparison and queue search -/

theorem strcmp_eq_zero_iff : ∀ (a b : List Char), strcmp a b = 0 ↔ a = b
  | [], [] => by simp [strcmp]
  | [], _ :: _ => by simp [strcmp]
  | _ :: _, [] => by simp [strcmp]
  | a :: as, b :: bs => by
    by_cases h : a = b
    · simp [strcmp, h, strcmp_eq_zero_iff as bs]
    · by_cases h2 : a.toNat < b.toNat <;> simp [strcmp, h, h2]

theorem g_strcmp0_eq_zero_iff (str1 str2 : Option String) :
    g_strcmp0 str1 str2 = 0 ↔ str1 = str2 := by
  cases str1 with
  | none => cases str2 <;> simp [g_strcmp0]
  | some a =>
    cases str2 with
    | none => simp [g_strcmp0]
    | some b =>
      simp only [g_strcmp0, strcmp_eq_zero_iff, Option.some.injEq]
      exact ⟨fun h => String.ext h, fun h => by rw [h]⟩

theorem compare_cstream_eq_zero_iff (cs : CollectionStream) (stream_id : Option String) :
    _compare_cstream cs stream_id = 0 ↔ cs.stream_id = stream_id := by
  simp [_compare_cstream, g_strcmp0_eq_zero_iff]

theorem g_queue_find_custom_eq_none {α β : Type} (queue : List α) (data : β)
    (func : α → β → Int) :
    g_queue_find_custom queue data func = none ↔ ∀ a ∈ queue, func a data ≠ 0 := by
  induction queue with
  | nil => simp [g_queue_find_custom]
  | cons a rest ih =>
    by_cases h : func a data = 0
    · simp [g_queue_find_custom, h]
    · simp [g_queue_find_custom, h, ih]

theorem g_queue_find_custom_first {α β : Type} (pre : List α) (e : α) (post : List α)
    (data : β) (func : α → β → Int) (hpre : ∀ p ∈ pre, func p data ≠ 0)
    (he : func e data = 0) :
    g_queue_find_custom (pre ++ e :: post) data func = some pre.length := by
  induction pre with
  | nil => simp [g_queue_find_custom, he]
  | cons p pre ih =>
    have hp : func p data ≠ 0 := hpre p (by simp)
    have ih2 := ih (fun q hq => hpre q (by simp [hq]))
    simp [g_queue_find_custom, hp, ih2]

theorem g_queue_find_custom_some {α β : Type} (queue : List α) (data : β)
    (func : α → β → Int) (i : Nat) (h : g_queue_find_custom queue data func = some i) :
    ∃ pre e post, queue = pre ++ e :: post ∧ pre.length = i ∧
      (∀ p ∈ pre, func p data ≠ 0) ∧ func e data = 0 := by
  induction queue generalizing i with
  | nil => simp [g_queue_find_custom] at h
  | cons a rest ih =>
    by_cases ha : func a data = 0
    · simp [g_queue_find_custom, ha] at h
      exact ⟨[], a, rest, by simp, by simp [h], by simp, ha⟩
    · simp [g_queue_find_custom, ha] at h
      obtain ⟨j, hj, hji⟩ := h
      obtain ⟨pre, e, post, hq, hlen, hpre, he⟩ := ih j hj
      refine ⟨a :: pre, e, post, by simp [hq], by simp [hlen, hji], ?_, he⟩
      intro p hp
      rcases List.mem_cons.mp hp with rfl | hp
      · exact ha
      · exact hpre p hp

theorem getElem?_first {α : Type} (pre : List α) (e : α) (post : List α) :
    (pre ++ e :: post)[pre.length]? = some e := by
  induction pre with
  | nil => simp
  | cons p pre ih => simpa using ih

theorem set_first {α : Type} (pre : List α) (e x : α) (post : List α) :
    (pre ++ e :: post).set pre.length x = pre ++ x :: post := by
  induction pre with
  | nil => simp
  | cons p pre ih => simp [ih]


/-! ## What the two mutators do -/

theorem add_stream_valid (env : GstStreams) (c : GstStreamCollection) (s : GstStreamPtr)
    (hs : GST_IS_STREAM env s = true) :
    gst_stream_collection_add_stream env c s =
      (true,
        { c with
          streams := c.streams ++
            [{ stream := s, stream_id := gst_stream_get_stream_id env s,
               variants := [], has_variant := false }]
          notify_handlers := c.notify_handlers ++ [s] }) := by
  simp [gst_stream_collection_add_stream, hs, g_queue_push_tail]

theorem add_stream_invalid (env : GstStreams) (c : GstStreamCollection) (s : GstStreamPtr)
    (hs : GST_IS_STREAM env s = false) :
    gst_stream_collection_add_stream env c s = (false, c) := by
  simp [gst_stream_collection_add_stream, hs]

theorem add_variant_not_found (env : GstStreams) (c : GstStreamCollection)
    (id : Option String) (v : GstStreamPtr)
    (h : ∀ e ∈ c.streams, e.stream_id ≠ id) :
    gst_stream_collection_add_variant env c id v = (false, c) := by
  have hnone : g_queue_find_custom c.streams id _compare_cstream = none := by
    rw [g_queue_find_custom_eq_none]
    intro e he hz
    exact h e he ((compare_cstream_eq_zero_iff e id).mp hz)
  unfold gst_stream_collection_add_variant
  split
  · rfl
  · split
    · rfl
    · rw [hnone]

theorem add_variant_found (env : GstStreams) (c : GstStreamCollection) (id : String)
    (v : GstStreamPtr) (pre : List CollectionStream) (e : CollectionStream)
    (post : List CollectionStream) (hv : v ≠ NULL) (hc : c.streams = pre ++ e :: post)
    (hpre : ∀ p ∈ pre, p.stream_id ≠ some id) (he : e.stream_id = some id) :
    gst_stream_collection_add_variant env c (some id) v =
      if gst_stream_get_stream_type env e.stream ≠ gst_stream_get_stream_type env v then
        (false, c)
      else
        (true,
          { c with
            streams := pre ++
              { e with variants := e.variants ++ [v], has_variant := true } :: post }) := by
  have hfind : g_queue_find_custom c.streams (some id) _compare_cstream =
      some pre.length := by
    rw [hc]
    apply g_queue_find_custom_first
    · intro p hp hz
      exact hpre p hp ((compare_cstream_eq_zero_iff p (some id)).mp hz)
    · exact (compare_cstream_eq_zero_iff e (some id)).mpr he
  have hget : c.streams[pre.length]? = some e := by rw [hc]; exact getElem?_first pre e post
  have hset : ∀ x, c.streams.set pre.length x = pre ++ x :: post := by
    intro x; rw [hc]; exact set_first pre e x post
  unfold gst_stream_collection_add_variant
  simp only [hfind, hget, hset, g_list_append]
  simp [hv]

theorem add_variant_cases (env : GstStreams) (c : GstStreamCollection)
    (id : Option String) (v : GstStreamPtr) :
    gst_stream_collection_add_variant env c id v = (false, c) ∨
    ∃ sid pre e post, id = some sid ∧ v ≠ NULL ∧ c.streams = pre ++ e :: post ∧
      (∀ p ∈ pre, p.stream_id ≠ some sid) ∧ e.stream_id = some sid ∧
      gst_stream_get_stream_type env e.stream = gst_stream_get_stream_type env v ∧
      gst_stream_collection_add_variant env c id v =
        (true,
          { c with
            streams := pre ++
              { e with variants := e.variants ++ [v], has_variant := true } :: post }) := by
  cases id with
  | none => left; simp [gst_stream_collection_add_variant]
  | some sid =>
    by_cases hv : v = NULL
    · left; simp [gst_stream_collection_add_variant, hv]
    · cases hf : g_queue_find_custom c.streams (some sid) _compare_cstream with
      | none =>
        left
        apply add_variant_not_found
        intro e he hid
        exact (g_queue_find_custom_eq_none _ _ _).mp hf e he
          ((compare_cstream_eq_zero_iff e (some sid)).mpr hid)
      | some i =>
        obtain ⟨pre, e, post, hq, _, hpre, he⟩ := g_queue_find_custom_some _ _ _ i hf
        have hpre2 : ∀ p ∈ pre, p.stream_id ≠ some sid := fun p hp hid =>
          hpre p hp ((compare_cstream_eq_zero_iff p (some sid)).mpr hid)
        have he2 : e.stream_id = some sid := (compare_cstream_eq_zero_iff e (some sid)).mp he
        have hfound := add_variant_found env c sid v pre e post hv hq hpre2 he2
        by_cases ht : gst_stream_get_stream_type env e.stream =
            gst_stream_get_stream_type env v
        · right
          refine ⟨sid, pre, e, post, rfl, hv, hq, hpre2, he2, ht, ?_⟩
          rw [hfound]; simp [ht]
        · left
          rw [hfound]; simp [ht]

theorem get_variants_not_found (c : GstStreamCollection) (id : Option String)
    (h : ∀ e ∈ c.streams, e.stream_id ≠ id) :
    gst_stream_collection_get_variants c id = [] := by
  have hnone : g_queue_find_custom c.streams id _compare_cstream = none := by
    rw [g_queue_find_custom_eq_none]
    intro e he hz
    exact h e he ((compare_cstream_eq_zero_iff e id).mp hz)
  unfold gst_stream_collection_get_variants
  split
  · rfl
  · rw [hnone]

theorem get_variants_found (c : GstStreamCollection) (id : String)
    (pre : List CollectionStream) (e : CollectionStream) (post : List CollectionStream)
    (hc : c.streams = pre ++ e :: post)
    (hpre : ∀ p ∈ pre, p.stream_id ≠ some id) (he : e.stream_id = some id) :
    gst_stream_collection_get_variants c (some id) = e.variants := by
  have hfind : g_queue_find_custom c.streams (some id) _compare_cstream =
      some pre.length := by
    rw [hc]
    apply g_queue_find_custom_first
    · intro p hp hz
      exact hpre p hp ((compare_cstream_eq_zero_iff p (some id)).mp hz)
    · exact (compare_cstream_eq_zero_iff e (some id)).mpr he
  have hget : c.streams[pre.length]? = some e := by rw [hc]; exact getElem?_first pre e post
  unfold gst_stream_collection_get_variants
  simp [hfind, hget]


theorem is_variant_for_not_found (c : GstStreamCollection) (candidate : GstStreamPtr)
    (id : Option String) (h : ∀ e ∈ c.streams, e.stream_id ≠ id) :
    gst_stream_collection_is_variant_for c candidate id = false := by
  have hnone : g_queue_find_custom c.streams id _compare_cstream = none := by
    rw [g_queue_find_custom_eq_none]
    intro e he hz
    exact h e he ((compare_cstream_eq_zero_iff e id).mp hz)
  unfold gst_stream_collection_is_variant_for
  split
  · rfl
  · split
    · rfl
    · rw [hnone]

theorem is_variant_for_found (c : GstStreamCollection) (candidate : GstStreamPtr)
    (id : String) (pre : List CollectionStream) (e : CollectionStream)
    (post : List CollectionStream) (hcand : candidate ≠ NULL)
    (hc : c.streams = pre ++ e :: post)
    (hpre : ∀ p ∈ pre, p.stream_id ≠ some id) (he : e.stream_id = some id) :
    gst_stream_collection_is_variant_for c candidate (some id) =
      decide (candidate ∈ e.variants) := by
  have hfind : g_queue_find_custom c.streams (some id) _compare_cstream =
      some pre.length := by
    rw [hc]
    apply g_queue_find_custom_first
    · intro p hp hz
      exact hpre p hp ((compare_cstream_eq_zero_iff p (some id)).mp hz)
    · exact (compare_cstream_eq_zero_iff e (some id)).mpr he
  have hget : c.streams[pre.length]? = some e := by rw [hc]; exact getElem?_first pre e post
  unfold gst_stream_collection_is_variant_for
  simp only [hfind, hget]
  by_cases hvar : e.variants = []
  · simp [hcand, hvar]
  · by_cases hmem : candidate ∈ e.variants
    · simp [hcand, hvar, hmem]
    · simp only [hcand, hvar, hmem, if_false, decide_False]
      simp only [reduceCtorEq, if_false]
      rw [List.any_eq_false]
      intro x hx
      simp only [decide_eq_true_eq]
      intro hxe
      exact hmem (hxe ▸ hx)

/-- Every entry of a reachable collection holds a valid stream. -/
theorem reachable_streams_valid (env : GstStreams) (c : GstStreamCollection)
    (h : Reachable env c) : ∀ e ∈ c.streams, GST_IS_STREAM env e.stream = true := by
  induction h with
  | new u =>
    intro e he
    cases u <;>
      simp [gst_stream_collection_new, gst_stream_collection_set_upstream_id,
        gst_stream_collection_init] at he
  | set_upstream_id c u _ ih =>
    intro e he
    apply ih
    unfold gst_stream_collection_set_upstream_id at he
    split at he
    · exact he
    · cases u <;> exact he
  | add_stream c s _ ih =>
    intro e he
    cases hs : GST_IS_STREAM env s with
    | false =>
      rw [add_stream_invalid env c s hs] at he
      exact ih e he
    | true =>
      rw [add_stream_valid env c s hs] at he
      simp only [List.mem_append, List.mem_singleton] at he
      rcases he with he | rfl
      · exact ih e he
      · exact hs
  | add_variant c id v _ ih =>
    intro e he
    rcases add_variant_cases env c id v with hfail | ⟨sid, pre, e0, post, _, _, hq, _, _, _, hok⟩
    · rw [hfail] at he
      exact ih e he
    · rw [hok] at he
      simp only [List.mem_append, List.mem_cons] at he
      rcases he with he | rfl | he
      · exact ih e (by rw [hq]; simp [he])
      · exact ih e0 (by rw [hq]; simp)
      · exact ih e (by rw [hq]; simp [he])


theorem first_entry_cases (queue : List CollectionStream) (id : Option String) :
    (∀ e ∈ queue, e.stream_id ≠ id) ∨
    ∃ pre e post, queue = pre ++ e :: post ∧ (∀ p ∈ pre, p.stream_id ≠ id) ∧
      e.stream_id = id := by
  cases hf : g_queue_find_custom queue id _compare_cstream with
  | none =>
    left
    intro e he hid
    exact (g_queue_find_custom_eq_none _ _ _).mp hf e he
      ((compare_cstream_eq_zero_iff e id).mpr hid)
  | some i =>
    right
    obtain ⟨pre, e, post, hq, _, hpre, he⟩ := g_queue_find_custom_some _ _ _ i hf
    exact ⟨pre, e, post, hq,
      fun p hp hid => hpre p hp ((compare_cstream_eq_zero_iff p id).mpr hid),
      (compare_cstream_eq_zero_iff e id).mp he⟩

theorem is_variant_for_null (c : GstStreamCollection) (id : Option String) :
    gst_stream_collection_is_variant_for c NULL id = false := by
  simp [gst_stream_collection_is_variant_for]

/-- After a successful `add_variant (c, id, v)` the variants for `id` are the
former ones and `v`. -/
theorem is_variant_for_after_add_variant (env : GstStreams) (c : GstStreamCollection)
    (id : Option String) (v : GstStreamPtr)
    (h : (gst_stream_collection_add_variant env c id v).1 = true) (x : GstStreamPtr) :
    gst_stream_collection_is_variant_for
        (gst_stream_collection_add_variant env c id v).2 x id =
      (gst_stream_collection_is_variant_for c x id || (x != NULL && x == v)) := by
  rcases add_variant_cases env c id v with hfail |
    ⟨sid, pre, e, post, hid, hv, hq, hpre, he, _, hok⟩
  · rw [hfail] at h; simp at h
  · subst hid
    by_cases hx : x = NULL
    · subst hx
      simp [is_variant_for_null]
    · rw [hok]
      rw [is_variant_for_found _ x sid pre
          { e with variants := e.variants ++ [v], has_variant := true } post hx rfl hpre he,
        is_variant_for_found c x sid pre e post hx hq hpre he]
      by_cases hm : x ∈ e.variants
      · simp [hm]
      · by_cases hxv : x = v
        · simp [hxv, hv]
        · simp [hm, hxv]


/-! ## Membership: add, size, positional lookup -/

/-- C1: adding a valid (non-null) stream `s` to any collection `c` returns
`TRUE`, raises `get_size` by exactly one, and `get_stream` at the last index
(the old size) returns exactly `s`. -/
theorem add_stream_size_and_last (env : GstStreams) (c : GstStreamCollection)
    (s : GstStreamPtr) (hs : GST_IS_STREAM env s = true) :
    (gst_stream_collection_add_stream env c s).1 = true ∧
    gst_stream_collection_get_size (gst_stream_collection_add_stream env c s).2 =
      gst_stream_collection_get_size c + 1 ∧
    gst_stream_collection_get_stream (gst_stream_collection_add_stream env c s).2
      (gst_stream_collection_get_size c) = s := by
  rw [add_stream_valid env c s hs]
  refine ⟨rfl, ?_, ?_⟩
  · simp [gst_stream_collection_get_size, g_queue_get_length]
  · simp [gst_stream_collection_get_stream, gst_stream_collection_get_size,
      g_queue_get_length, g_queue_peek_nth]

/-- Witness for C1: adding vstream (address `3`) to the collection of the unit
test that holds the two audio streams. -/
theorem add_stream_size_and_last_witness :
    GST_IS_STREAM testStreams 3 = true ∧
    (gst_stream_collection_add_stream testStreams
      (gst_stream_collection_add_stream testStreams
        (gst_stream_collection_add_stream testStreams
          (gst_stream_collection_new (some "upstream-id")) 1).2 2).2 3).1 = true ∧
    gst_stream_collection_get_size testCollection = 2 + 1 ∧
    gst_stream_collection_get_stream testCollection 2 = 3 :=
  ⟨by decide,
    (add_stream_size_and_last testStreams
      (gst_stream_collection_add_stream testStreams
        (gst_stream_collection_add_stream testStreams
          (gst_stream_collection_new (some "upstream-id")) 1).2 2).2 3 (by decide)).1,
    by decide, by decide⟩

/-- C2: insertion order is preserved. `add_stream` leaves the stream at every
index below the old size where it was, and after adding valid streams `A`,
`B`, `C` in that order to a new collection `get_stream` at `0`, `1`, `2`
returns `A`, `B`, `C`. -/
theorem insertion_order_preserved (env : GstStreams) :
    (∀ (c : GstStreamCollection) (s : GstStreamPtr) (i : Nat),
      i < gst_stream_collection_get_size c →
      gst_stream_collection_get_stream (gst_stream_collection_add_stream env c s).2 i =
        gst_stream_collection_get_stream c i) ∧
    (∀ (u : Option String) (A B C : GstStreamPtr),
      GST_IS_STREAM env A = true → GST_IS_STREAM env B = true →
      GST_IS_STREAM env C = true →
      gst_stream_collection_get_stream
        (gst_stream_collection_add_stream env
          (gst_stream_collection_add_stream env
            (gst_stream_collection_add_stream env
              (gst_stream_collection_new u) A).2 B).2 C).2 0 = A ∧
      gst_stream_collection_get_stream
        (gst_stream_collection_add_stream env
          (gst_stream_collection_add_stream env
            (gst_stream_collection_add_stream env
              (gst_stream_collection_new u) A).2 B).2 C).2 1 = B ∧
      gst_stream_collection_get_stream
        (gst_stream_collection_add_stream env
          (gst_stream_collection_add_stream env
            (gst_stream_collection_add_stream env
              (gst_stream_collection_new u) A).2 B).2 C).2 2 = C) := by
  constructor
  · intro c s i hi
    cases hs : GST_IS_STREAM env s with
    | false => rw [add_stream_invalid env c s hs]
    | true =>
      rw [add_stream_valid env c s hs]
      simp only [gst_stream_collection_get_size, g_queue_get_length] at hi
      simp [gst_stream_collection_get_stream, g_queue_peek_nth,
        List.getElem?_append_left hi]
  · intro u A B C hA hB hC
    rw [add_stream_valid env _ A hA, add_stream_valid env _ B hB,
      add_stream_valid env _ C hC]
    cases u <;>
      simp [gst_stream_collection_get_stream, g_queue_peek_nth, gst_stream_collection_new,
        gst_stream_collection_set_upstream_id, gst_stream_collection_init]

/-- Witness for C2: the three streams of the unit test, in their order. -/
theorem insertion_order_preserved_witness :
    gst_stream_collection_get_stream testCollection 0 = 1 ∧
    gst_stream_collection_get_stream testCollection 1 = 2 ∧
    gst_stream_collection_get_stream testCollection 2 = 3 :=
  (insertion_order_preserved testStreams).2 (some "upstream-id") 1 2 3
    (by decide) (by decide) (by decide)

/-- C3: `get_stream` is total. At an index not below the size it returns
`NULL`; at an index below the size of a reachable collection it returns the
stream of the entry at that position, which is a valid, non-null stream. -/
theorem get_stream_in_and_out_of_range (env : GstStreams) (c : GstStreamCollection)
    (i : Nat) :
    (gst_stream_collection_get_size c ≤ i →
      gst_stream_collection_get_stream c i = NULL) ∧
    (Reachable env c → i < gst_stream_collection_get_size c →
      gst_stream_collection_get_stream c i ≠ NULL ∧
      GST_IS_STREAM env (gst_stream_collection_get_stream c i) = true ∧
      ∃ e, c.streams[i]? = some e ∧ gst_stream_collection_get_stream c i = e.stream) := by
  constructor
  · intro hi
    simp only [gst_stream_collection_get_size, g_queue_get_length] at hi
    simp [gst_stream_collection_get_stream, g_queue_peek_nth, List.getElem?_eq_none hi]
  · intro hr hi
    simp only [gst_stream_collection_get_size, g_queue_get_length] at hi
    have hget : c.streams[i]? = some (c.streams[i]) := List.getElem?_eq_getElem hi
    have hvalid := reachable_streams_valid env c hr (c.streams[i]) (List.getElem_mem hi)
    have hstream : gst_stream_collection_get_stream c i = (c.streams[i]).stream := by
      simp [gst_stream_collection_get_stream, g_queue_peek_nth, hget]
    refine ⟨?_, ?_, c.streams[i], hget, hstream⟩
    · rw [hstream]
      intro h0
      rw [GST_IS_STREAM, h0] at hvalid
      simp at hvalid
    · rw [hstream]; exact hvalid

/-- Witness for C3: index `2` of the three-stream test collection. -/
theorem get_stream_in_and_out_of_range_witness :
    gst_stream_collection_get_stream testCollection 2 ≠ NULL ∧
    GST_IS_STREAM testStreams (gst_stream_collection_get_stream testCollection 2) = true ∧
    ∃ e, testCollection.streams[2]? = some e ∧
      gst_stream_collection_get_stream testCollection 2 = e.stream :=
  (get_stream_in_and_out_of_range testStreams testCollection 2).2
    (Reachable.add_stream _ 3 (Reachable.add_stream _ 2 (Reachable.add_stream _ 1
      (Reachable.new (some "upstream-id")))))
    (by decide)

/-! ## Variant linkage -/

/-- C4: when no entry of `c` has the stream id `id`, `add_variant (c, id, v)`
returns `FALSE` and the collection afterwards is the collection before: same
entries, same variant lists, same size. -/
theorem add_variant_unknown_id (env : GstStreams) (c : GstStreamCollection)
    (id : String) (v : GstStreamPtr)
    (h : ∀ e ∈ c.streams, e.stream_id ≠ some id) :
    (gst_stream_collection_add_variant env c (some id) v).1 = false ∧
    (gst_stream_collection_add_variant env c (some id) v).2 = c ∧
    gst_stream_collection_get_size (gst_stream_collection_add_variant env c (some id) v).2 =
      gst_stream_collection_get_size c := by
  rw [add_variant_not_found env c (some id) v h]
  exact ⟨rfl, rfl, rfl⟩

/-- Witness for C4: the unit test's attempt to add vstream1 to a stream id
that no member has. -/
theorem add_variant_unknown_id_witness :
    (∀ e ∈ testCollection.streams, e.stream_id ≠ some "doesnotexist") ∧
    (gst_stream_collection_add_variant testStreams testCollection
      (some "doesnotexist") 4).1 = false ∧
    (gst_stream_collection_add_variant testStreams testCollection
      (some "doesnotexist") 4).2 = testCollection ∧
    gst_stream_collection_get_size
      (gst_stream_collection_add_variant testStreams testCollection
        (some "doesnotexist") 4).2 = gst_stream_collection_get_size testCollection :=
  ⟨by decide, add_variant_unknown_id testStreams testCollection "doesnotexist" 4 (by decide)⟩

/-- C5: when the first entry of `c` with stream id `id` holds a stream whose
type differs from the type of `v`, `add_variant (c, id, v)` returns `FALSE`
and the collection afterwards is the collection before. -/
theorem add_variant_type_mismatch (env : GstStreams) (c : GstStreamCollection)
    (id : String) (v : GstStreamPtr) (pre : List CollectionStream)
    (e : CollectionStream) (post : List CollectionStream)
    (hc : c.streams = pre ++ e :: post)
    (hpre : ∀ p ∈ pre, p.stream_id ≠ some id) (he : e.stream_id = some id)
    (ht : gst_stream_get_stream_type env e.stream ≠ gst_stream_get_stream_type env v) :
    (gst_stream_collection_add_variant env c (some id) v).1 = false ∧
    (gst_stream_collection_add_variant env c (some id) v).2 = c := by
  by_cases hv : v = NULL
  · simp [gst_stream_collection_add_variant, hv]
  · rw [add_variant_found env c id v pre e post hv hc hpre he]
    simp [ht]

/-- Witness for C5: the audio stream astream1 offered as a variant of the video
stream vstream. -/
theorem add_variant_type_mismatch_witness :
    (gst_stream_collection_add_variant testStreams testCollection (some "vstream") 1).1 =
      false ∧
    (gst_stream_collection_add_variant testStreams testCollection (some "vstream") 1).2 =
      testCollection :=
  add_variant_type_mismatch testStreams testCollection "vstream" 1
    [{ stream := 1, stream_id := some "astream1", variants := [], has_variant := false },
     { stream := 2, stream_id := some "astream2", variants := [], has_variant := false }]
    { stream := 3, stream_id := some "vstream", variants := [], has_variant := false }
    [] (by decide) (by decide) (by decide) (by decide)


/-- C6: when an entry with stream id `id` exists and the stream of the first
such entry has the type of the (non-null) stream `v`, `add_variant (c, id, v)`
returns `TRUE` and `get_variants` for `id` afterwards is the former list with
`v` appended at its end; a second such call with `v2` leaves the former list
followed by `v`, `v2` in that order. -/
theorem add_variant_appends (env : GstStreams) (c : GstStreamCollection)
    (id : String) (v : GstStreamPtr) (pre : List CollectionStream)
    (e : CollectionStream) (post : List CollectionStream) (hv : v ≠ NULL)
    (hc : c.streams = pre ++ e :: post)
    (hpre : ∀ p ∈ pre, p.stream_id ≠ some id) (he : e.stream_id = some id)
    (ht : gst_stream_get_stream_type env e.stream = gst_stream_get_stream_type env v) :
    (gst_stream_collection_add_variant env c (some id) v).1 = true ∧
    gst_stream_collection_get_variants
        (gst_stream_collection_add_variant env c (some id) v).2 (some id) =
      gst_stream_collection_get_variants c (some id) ++ [v] ∧
    (∀ v2 : GstStreamPtr, v2 ≠ NULL →
      gst_stream_get_stream_type env e.stream = gst_stream_get_stream_type env v2 →
      (gst_stream_collection_add_variant env
        (gst_stream_collection_add_variant env c (some id) v).2 (some id) v2).1 = true ∧
      gst_stream_collection_get_variants
          (gst_stream_collection_add_variant env
            (gst_stream_collection_add_variant env c (some id) v).2 (some id) v2).2
          (some id) =
        gst_stream_collection_get_variants c (some id) ++ [v, v2]) := by
  have h0 := get_variants_found c id pre e post hc hpre he
  have h1 := add_variant_found env c id v pre e post hv hc hpre he
  simp only [ht, ne_eq, not_true_eq_false, if_false] at h1
  rw [h1, h0]
  refine ⟨rfl, ?_, ?_⟩
  · exact get_variants_found _ id pre
      { e with variants := e.variants ++ [v], has_variant := true } post rfl hpre he
  · intro v2 hv2 ht2
    have h2 := add_variant_found env
      { c with
        streams := pre ++
          { e with variants := e.variants ++ [v], has_variant := true } :: post }
      id v2 pre { e with variants := e.variants ++ [v], has_variant := true } post
      hv2 rfl hpre he
    simp only [ht2, ne_eq, not_true_eq_false, if_false] at h2
    rw [h2]
    refine ⟨rfl, ?_⟩
    rw [get_variants_found _ id pre
      { e with variants := e.variants ++ [v] ++ [v2], has_variant := true } post rfl hpre he]
    simp

/-- Witness for C6: vstream1 then vstream2 added as variants of vstream in the
unit test's collection; the list read back is `[vstream1, vstream2]`. -/
theorem add_variant_appends_witness :
    (gst_stream_collection_add_variant testStreams testCollection (some "vstream") 4).1 =
      true ∧
    gst_stream_collection_get_variants
        (gst_stream_collection_add_variant testStreams testCollection
          (some "vstream") 4).2 (some "vstream") =
      gst_stream_collection_get_variants testCollection (some "vstream") ++ [4] ∧
    gst_stream_collection_get_variants
        (gst_stream_collection_add_variant testStreams
          (gst_stream_collection_add_variant testStreams testCollection
            (some "vstream") 4).2 (some "vstream") 5).2 (some "vstream") =
      gst_stream_collection_get_variants testCollection (some "vstream") ++ [4, 5] ∧
    gst_stream_collection_get_variants testCollection (some "vstream") = [] :=
  have h := add_variant_appends testStreams testCollection "vstream" 4
    [{ stream := 1, stream_id := some "astream1", variants := [], has_variant := false },
     { stream := 2, stream_id := some "astream2", variants := [], has_variant := false }]
    { stream := 3, stream_id := some "vstream", variants := [], has_variant := false }
    [] (by decide) (by decide) (by decide) (by decide) (by decide)
  ⟨h.1, h.2.1, (h.2.2 5 (by decide) (by decide)).2, by decide⟩

/-- C7: variants are not members. Whether `add_variant (c, id, v)` succeeds or
fails, `get_size` is what it was and `get_stream` returns at every index what
it returned before. -/
theorem add_variant_keeps_members (env : GstStreams) (c : GstStreamCollection)
    (id : Option String) (v : GstStreamPtr) :
    gst_stream_collection_get_size (gst_stream_collection_add_variant env c id v).2 =
      gst_stream_collection_get_size c ∧
    ∀ i : Nat,
      gst_stream_collection_get_stream (gst_stream_collection_add_variant env c id v).2 i =
        gst_stream_collection_get_stream c i := by
  rcases add_variant_cases env c id v with hfail |
    ⟨sid, pre, e, post, _, _, hq, _, _, _, hok⟩
  · rw [hfail]; exact ⟨rfl, fun _ => rfl⟩
  · rw [hok]
    constructor
    · simp [gst_stream_collection_get_size, g_queue_get_length, hq]
    · intro i
      simp only [gst_stream_collection_get_stream, g_queue_peek_nth, hq]
      rcases Nat.lt_trichotomy i pre.length with hlt | heq | hgt
      · rw [List.getElem?_append_left hlt, List.getElem?_append_left hlt]
      · subst heq
        rw [getElem?_first, getElem?_first]
      · rw [List.getElem?_append_right (Nat.le_of_lt hgt),
          List.getElem?_append_right (Nat.le_of_lt hgt)]
        obtain ⟨k, hk⟩ : ∃ k, i - pre.length = k + 1 := ⟨i - pre.length - 1, by omega⟩
        rw [hk]
        rfl

/-- C8: after a successful `add_variant (c, id, v)` the stream `v` is a variant
for `id`, every stream that was a variant for `id` still is one, and a stream
other than `v` that was not a variant for `id` is still not one. So after two
successful calls adding `v` and then `v2`, both are variants for `id`, and a
stream different from both that was not a variant before is not one after. -/
theorem add_variant_then_is_variant_for (env : GstStreams) (c : GstStreamCollection)
    (id : Option String) (v : GstStreamPtr)
    (h : (gst_stream_collection_add_variant env c id v).1 = true) :
    gst_stream_collection_is_variant_for
      (gst_stream_collection_add_variant env c id v).2 v id = true ∧
    (∀ x : GstStreamPtr, gst_stream_collection_is_variant_for c x id = true →
      gst_stream_collection_is_variant_for
        (gst_stream_collection_add_variant env c id v).2 x id = true) ∧
    (∀ x : GstStreamPtr, x ≠ v → gst_stream_collection_is_variant_for c x id = false →
      gst_stream_collection_is_variant_for
        (gst_stream_collection_add_variant env c id v).2 x id = false) ∧
    (∀ v2 : GstStreamPtr,
      (gst_stream_collection_add_variant env
        (gst_stream_collection_add_variant env c id v).2 id v2).1 = true →
      gst_stream_collection_is_variant_for
        (gst_stream_collection_add_variant env
          (gst_stream_collection_add_variant env c id v).2 id v2).2 v id = true ∧
      gst_stream_collection_is_variant_for
        (gst_stream_collection_add_variant env
          (gst_stream_collection_add_variant env c id v).2 id v2).2 v2 id = true ∧
      ∀ x : GstStreamPtr, x ≠ v → x ≠ v2 →
        gst_stream_collection_is_variant_for c x id = false →
        gst_stream_collection_is_variant_for
          (gst_stream_collection_add_variant env
            (gst_stream_collection_add_variant env c id v).2 id v2).2 x id = false) := by
  have hv : v ≠ NULL := by
    rcases add_variant_cases env c id v with hfail | ⟨_, _, _, _, _, hv, _⟩
    · rw [hfail] at h; simp at h
    · exact hv
  have step := is_variant_for_after_add_variant env c id v h
  refine ⟨?_, ?_, ?_, ?_⟩
  · rw [step]; simp [hv]
  · intro x hx
    rw [step, hx]; simp
  · intro x hxv hx
    rw [step, hx]; simp [hxv]
  · intro v2 h2
    have hv2 : v2 ≠ NULL := by
      rcases add_variant_cases env (gst_stream_collection_add_variant env c id v).2 id v2
        with hfail | ⟨_, _, _, _, _, hv2, _⟩
      · rw [hfail] at h2; simp at h2
      · exact hv2
    have step2 := is_variant_for_after_add_variant env
      (gst_stream_collection_add_variant env c id v).2 id v2 h2
    refine ⟨?_, ?_, ?_⟩
    · rw [step2, step]; simp [hv]
    · rw [step2]; simp [hv2]
    · intro x hxv hxv2 hx
      rw [step2, step, hx]; simp [hxv, hxv2]

/-- Witness for C8: the unit test. vstream1 and vstream2 are added as variants
of vstream; both are then variants for it and astream1 is not. -/
theorem add_variant_then_is_variant_for_witness :
    gst_stream_collection_is_variant_for
      (gst_stream_collection_add_variant testStreams
        (gst_stream_collection_add_variant testStreams testCollection
          (some "vstream") 4).2 (some "vstream") 5).2 4 (some "vstream") = true ∧
    gst_stream_collection_is_variant_for
      (gst_stream_collection_add_variant testStreams
        (gst_stream_collection_add_variant testStreams testCollection
          (some "vstream") 4).2 (some "vstream") 5).2 5 (some "vstream") = true ∧
    gst_stream_collection_is_variant_for
      (gst_stream_collection_add_variant testStreams
        (gst_stream_collection_add_variant testStreams testCollection
          (some "vstream") 4).2 (some "vstream") 5).2 1 (some "vstream") = false :=
  have h := (add_variant_then_is_variant_for testStreams testCollection
    (some "vstream") 4 (by decide)).2.2.2 5 (by decide)
  ⟨h.1, h.2.1, h.2.2 1 (by decide) (by decide) (by decide)⟩


/-- C9: for a non-null `candidate`, `is_variant_for (c, candidate, id)` is `TRUE`
exactly when an entry with stream id `id` exists and the address `candidate`
occurs among the variants of the first such entry. It is `FALSE` for an id no
entry has, `FALSE` when the first entry for `id` has no variants, and `FALSE`
for any stream object whose address is not in that entry's variants, whatever
identifier and type the object has. -/
theorem is_variant_for_iff_first_entry (c : GstStreamCollection)
    (candidate : GstStreamPtr) (id : String) (hcand : candidate ≠ NULL) :
    (gst_stream_collection_is_variant_for c candidate (some id) = true ↔
      ∃ pre e post, c.streams = pre ++ e :: post ∧
        (∀ p ∈ pre, p.stream_id ≠ some id) ∧ e.stream_id = some id ∧
        candidate ∈ e.variants) ∧
    ((∀ e ∈ c.streams, e.stream_id ≠ some id) →
      gst_stream_collection_is_variant_for c candidate (some id) = false) ∧
    (∀ pre e post, c.streams = pre ++ e :: post →
      (∀ p ∈ pre, p.stream_id ≠ some id) → e.stream_id = some id →
      e.variants = [] →
      gst_stream_collection_is_variant_for c candidate (some id) = false) ∧
    (∀ (env : GstStreams) (w : GstStreamPtr) pre e post, w ≠ NULL →
      c.streams = pre ++ e :: post →
      (∀ p ∈ pre, p.stream_id ≠ some id) → e.stream_id = some id →
      w ∈ e.variants → candidate ∉ e.variants →
      GST_IS_STREAM env candidate = true →
      gst_stream_get_stream_id env candidate = gst_stream_get_stream_id env w →
      gst_stream_get_stream_type env candidate = gst_stream_get_stream_type env w →
      gst_stream_collection_is_variant_for c w (some id) = true ∧
      gst_stream_collection_is_variant_for c candidate (some id) = false) := by
  refine ⟨⟨?_, ?_⟩, ?_, ?_, ?_⟩
  · intro h
    rcases first_entry_cases c.streams (some id) with hnone | ⟨pre, e, post, hq, hpre, he⟩
    · rw [is_variant_for_not_found c candidate (some id) hnone] at h
      simp at h
    · rw [is_variant_for_found c candidate id pre e post hcand hq hpre he] at h
      exact ⟨pre, e, post, hq, hpre, he, of_decide_eq_true h⟩
  · rintro ⟨pre, e, post, hq, hpre, he, hmem⟩
    rw [is_variant_for_found c candidate id pre e post hcand hq hpre he]
    exact decide_eq_true hmem
  · intro hnone
    exact is_variant_for_not_found c candidate (some id) hnone
  · intro pre e post hq hpre he hempty
    rw [is_variant_for_found c candidate id pre e post hcand hq hpre he, hempty]
    simp
  · intro env w pre e post hw0 hq hpre he hw hnot _ _ _
    constructor
    · rw [is_variant_for_found c w id pre e post hw0 hq hpre he]
      exact decide_eq_true hw
    · rw [is_variant_for_found c candidate id pre e post hcand hq hpre he]
      exact decide_eq_false hnot

/-- Witness for C9: in the unit test's collection with vstream1 (address `4`)
registered as a variant of vstream, the stream object at address `6`, which
has the identifier and type of vstream1, is not a variant, while vstream1
is. -/
theorem is_variant_for_iff_first_entry_witness :
    gst_stream_get_stream_id testStreams 6 = gst_stream_get_stream_id testStreams 4 ∧
    gst_stream_get_stream_type testStreams 6 = gst_stream_get_stream_type testStreams 4 ∧
    gst_stream_collection_is_variant_for
      (gst_stream_collection_add_variant testStreams testCollection
        (some "vstream") 4).2 4 (some "vstream") = true ∧
    gst_stream_collection_is_variant_for
      (gst_stream_collection_add_variant testStreams testCollection
        (some "vstream") 4).2 6 (some "vstream") = false :=
  ⟨by decide, by decide,
    (is_variant_for_iff_first_entry
      (gst_stream_collection_add_variant testStreams testCollection (some "vstream") 4).2
      6 "vstream" (by decide)).2.2.2 testStreams 4
      [{ stream := 1, stream_id := some "astream1", variants := [], has_variant := false },
       { stream := 2, stream_id := some "astream2", variants := [], has_variant := false }]
      { stream := 3, stream_id := some "vstream", variants := [4], has_variant := true }
      [] (by decide) (by decide) (by decide) (by decide) (by decide) (by decide)
      (by decide) (by decide) (by decide)⟩

/-- C10, as the code has it: `get_variants` returns the variants list of the
first entry whose stream id is the given id. For an id that no entry has it
returns `NULL`, and `NULL` is also the list of a first entry that has no
variants, so its result does not tell the two apart; the result for a known
id differs from the one for an unknown id only when the entry has a
variant. -/
theorem get_variants_unknown_same_as_empty (c : GstStreamCollection)
    (id known : String) (pre : List CollectionStream) (e : CollectionStream)
    (post : List CollectionStream)
    (hunknown : ∀ x ∈ c.streams, x.stream_id ≠ some id)
    (hc : c.streams = pre ++ e :: post)
    (hpre : ∀ p ∈ pre, p.stream_id ≠ some known) (he : e.stream_id = some known) :
    gst_stream_collection_get_variants c (some id) = [] ∧
    gst_stream_collection_get_variants c (some known) = e.variants ∧
    (e.variants = [] →
      gst_stream_collection_get_variants c (some known) = [] ∧
      gst_stream_collection_get_variants c (some id) =
        gst_stream_collection_get_variants c (some known)) ∧
    (e.variants ≠ [] →
      gst_stream_collection_get_variants c (some id) ≠
        gst_stream_collection_get_variants c (some known)) := by
  have h1 := get_variants_not_found c (some id) hunknown
  have h2 := get_variants_found c known pre e post hc hpre he
  refine ⟨h1, h2, ?_, ?_⟩
  · intro hempty
    rw [h1, h2, hempty]
    exact ⟨rfl, rfl⟩
  · intro hne heq
    rw [h1, h2] at heq
    exact hne heq.symm

/-- Witness for C10 as amended: in the unit test's collection the unknown id
and the variant-less vstream both give `NULL`; once vstream has its two
variants, `get_variants` returns that list, which differs from the `NULL` of
the unknown id. -/
theorem get_variants_unknown_same_as_empty_witness :
    (gst_stream_collection_get_variants testCollection (some "doesnotexist") = [] ∧
      gst_stream_collection_get_variants testCollection (some "vstream") = [] ∧
      gst_stream_collection_get_variants testCollection (some "doesnotexist") =
        gst_stream_collection_get_variants testCollection (some "vstream")) ∧
    (gst_stream_collection_get_variants testCollectionVariants (some "vstream") = [4, 5] ∧
      gst_stream_collection_get_variants testCollectionVariants (some "doesnotexist") ≠
        gst_stream_collection_get_variants testCollectionVariants (some "vstream")) :=
  have h := get_variants_unknown_same_as_empty testCollection "doesnotexist" "vstream"
    [{ stream := 1, stream_id := some "astream1", variants := [], has_variant := false },
     { stream := 2, stream_id := some "astream2", variants := [], has_variant := false }]
    { stream := 3, stream_id := some "vstream", variants := [], has_variant := false }
    [] (by decide) (by decide) (by decide) (by decide)
  have hv := get_variants_unknown_same_as_empty testCollectionVariants "doesnotexist"
    "vstream"
    [{ stream := 1, stream_id := some "astream1", variants := [], has_variant := false },
     { stream := 2, stream_id := some "astream2", variants := [], has_variant := false }]
    { stream := 3, stream_id := some "vstream", variants := [4, 5], has_variant := true }
    [] (by decide) (by decide) (by decide) (by decide)
  ⟨⟨h.1, (h.2.2.1 rfl).1, (h.2.2.1 rfl).2⟩, ⟨hv.2.1, hv.2.2.2 (by decide)⟩⟩

/-- C10, counterexample: in the unit test's collection no entry has the id
`doesnotexist`, the entry of `vstream` exists and has zero variants, and
`get_variants` does not return different results for the two. -/
theorem get_variants_not_found_not_distinct :
    (∀ x ∈ testCollection.streams, x.stream_id ≠ some "doesnotexist") ∧
    testCollection.streams[2]? =
      some { stream := 3, stream_id := some "vstream", variants := [],
             has_variant := false } ∧
    ¬ (gst_stream_collection_get_variants testCollection (some "doesnotexist") ≠
        gst_stream_collection_get_variants testCollection (some "vstream")) := by
  decide


/-! ## Reverse lookup -/

theorem compare_variant_id_eq_zero_iff (env : GstStreams) (cs : CollectionStream)
    (vid : String) :
    _compare_variant_id env cs (some vid) = 0 ↔
      ∃ w ∈ cs.variants, gst_stream_get_stream_id env w = some vid := by
  unfold _compare_variant_id
  by_cases hnil : cs.variants = []
  · simp [hnil]
  · by_cases hany : cs.variants.any
        (fun data => decide (g_strcmp0 (gst_stream_get_stream_id env data) (some vid) = 0))
        = true
    · simp only [hnil, if_false, hany, if_true, true_iff]
      obtain ⟨w, hw, hz⟩ := List.any_eq_true.mp hany
      exact ⟨w, hw, (g_strcmp0_eq_zero_iff _ _).mp (of_decide_eq_true hz)⟩
    · simp only [hnil, if_false, hany]
      constructor
      · intro h; simp at h
      · rintro ⟨w, hw, hid⟩
        exact absurd (List.any_eq_true.mpr
          ⟨w, hw, decide_eq_true ((g_strcmp0_eq_zero_iff _ _).mpr hid)⟩) hany

theorem get_variant_of_not_found (env : GstStreams) (c : GstStreamCollection)
    (vid : String)
    (h : ∀ e ∈ c.streams, ∀ w ∈ e.variants, gst_stream_get_stream_id env w ≠ some vid) :
    gst_stream_collection_get_variant_of env c (some vid) = none := by
  have hnone : g_queue_find_custom c.streams (some vid) (_compare_variant_id env) = none := by
    rw [g_queue_find_custom_eq_none]
    intro e he hz
    obtain ⟨w, hw, hid⟩ := (compare_variant_id_eq_zero_iff env e vid).mp hz
    exact h e he w hw hid
  simp [gst_stream_collection_get_variant_of, hnone]

theorem get_variant_of_found (env : GstStreams) (c : GstStreamCollection)
    (vid : String) (pre : List CollectionStream) (e : CollectionStream)
    (post : List CollectionStream) (hc : c.streams = pre ++ e :: post)
    (hpre : ∀ p ∈ pre, ∀ w ∈ p.variants, gst_stream_get_stream_id env w ≠ some vid)
    (he : ∃ w ∈ e.variants, gst_stream_get_stream_id env w = some vid) :
    gst_stream_collection_get_variant_of env c (some vid) = e.stream_id := by
  have hfind : g_queue_find_custom c.streams (some vid) (_compare_variant_id env) =
      some pre.length := by
    rw [hc]
    apply g_queue_find_custom_first
    · intro p hp hz
      obtain ⟨w, hw, hid⟩ := (compare_variant_id_eq_zero_iff env p vid).mp hz
      exact hpre p hp w hw hid
    · exact (compare_variant_id_eq_zero_iff env e vid).mpr he
  have hget : c.streams[pre.length]? = some e := by rw [hc]; exact getElem?_first pre e post
  simp [gst_stream_collection_get_variant_of, hfind, hget]

/-- In a reachable collection an entry that has variants has a cached id. -/
theorem reachable_variants_have_id (env : GstStreams) (c : GstStreamCollection)
    (h : Reachable env c) : ∀ e ∈ c.streams, e.variants ≠ [] → e.stream_id ≠ none := by
  induction h with
  | new u =>
    intro e he
    cases u <;>
      simp [gst_stream_collection_new, gst_stream_collection_set_upstream_id,
        gst_stream_collection_init] at he
  | set_upstream_id c u _ ih =>
    intro e he
    apply ih
    unfold gst_stream_collection_set_upstream_id at he
    split at he
    · exact he
    · cases u <;> exact he
  | add_stream c s _ ih =>
    intro e he
    cases hs : GST_IS_STREAM env s with
    | false =>
      rw [add_stream_invalid env c s hs] at he
      exact ih e he
    | true =>
      rw [add_stream_valid env c s hs] at he
      simp only [List.mem_append, List.mem_singleton] at he
      rcases he with he | rfl
      · exact ih e he
      · intro hv; exact absurd rfl hv
  | add_variant c id v _ ih =>
    intro e he
    rcases add_variant_cases env c id v with hfail |
      ⟨sid, pre, e0, post, _, _, hq, _, hid, _, hok⟩
    · rw [hfail] at he
      exact ih e he
    · rw [hok] at he
      simp only [List.mem_append, List.mem_cons] at he
      rcases he with he | rfl | he
      · exact ih e (by rw [hq]; simp [he])
      · intro _; simp [hid]
      · exact ih e (by rw [hq]; simp [he])

/-- C11: `get_variant_of (c, vid)` returns the cached stream id of the first
entry, in insertion order, that has a variant whose identifier is `vid`; and
on a reachable collection it returns `NULL` exactly when no entry has such a
variant, as when `vid` names only a top-level stream or nothing at all. -/
theorem get_variant_of_first_owner (env : GstStreams) (c : GstStreamCollection)
    (vid : String) :
    (∀ pre e post, c.streams = pre ++ e :: post →
      (∀ p ∈ pre, ∀ w ∈ p.variants, gst_stream_get_stream_id env w ≠ some vid) →
      (∃ w ∈ e.variants, gst_stream_get_stream_id env w = some vid) →
      gst_stream_collection_get_variant_of env c (some vid) = e.stream_id) ∧
    (Reachable env c →
      (gst_stream_collection_get_variant_of env c (some vid) = none ↔
        ∀ e ∈ c.streams, ∀ w ∈ e.variants,
          gst_stream_get_stream_id env w ≠ some vid)) := by
  refine ⟨fun pre e post hc hpre he => get_variant_of_found env c vid pre e post hc hpre he,
    fun hr => ⟨?_, get_variant_of_not_found env c vid⟩⟩
  intro hnone
  cases hf : g_queue_find_custom c.streams (some vid) (_compare_variant_id env) with
  | none =>
    intro e he w hw hid
    exact (g_queue_find_custom_eq_none _ _ _).mp hf e he
      ((compare_variant_id_eq_zero_iff env e vid).mpr ⟨w, hw, hid⟩)
  | some i =>
    obtain ⟨pre, e, post, hq, _, hpre, he⟩ := g_queue_find_custom_some _ _ _ i hf
    have he2 := (compare_variant_id_eq_zero_iff env e vid).mp he
    have hpre2 : ∀ p ∈ pre, ∀ w ∈ p.variants,
        gst_stream_get_stream_id env w ≠ some vid := fun p hp w hw hid =>
      hpre p hp ((compare_variant_id_eq_zero_iff env p vid).mpr ⟨w, hw, hid⟩)
    rw [get_variant_of_found env c vid pre e post hq hpre2 he2] at hnone
    obtain ⟨w, hw, _⟩ := he2
    have hne : e.variants ≠ [] := List.ne_nil_of_mem hw
    exact absurd hnone
      (reachable_variants_have_id env c hr e (by rw [hq]; simp) hne)

/-- Witness for C11: in the unit test's collection with both variants added,
`vstream1` is owned by `vstream`, while `vstream`, the id of a top-level
stream only, has no owner. -/
theorem get_variant_of_first_owner_witness :
    gst_stream_collection_get_variant_of testStreams testCollectionVariants
      (some "vstream1") = some "vstream" ∧
    gst_stream_collection_get_variant_of testStreams testCollectionVariants
      (some "vstream") = none :=
  ⟨(get_variant_of_first_owner testStreams testCollectionVariants "vstream1").1
    [{ stream := 1, stream_id := some "astream1", variants := [], has_variant := false },
     { stream := 2, stream_id := some "astream2", variants := [], has_variant := false }]
    { stream := 3, stream_id := some "vstream", variants := [4, 5], has_variant := true }
    [] (by decide) (by decide) (by decide),
   ((get_variant_of_first_owner testStreams testCollectionVariants "vstream").2
    (Reachable.add_variant _ (some "vstream") 5 (Reachable.add_variant _ (some "vstream") 4
      (Reachable.add_stream _ 3 (Reachable.add_stream _ 2 (Reachable.add_stream _ 1
        (Reachable.new (some "upstream-id")))))))).mpr (by decide)⟩

/-- C12: round trip of `add_variant` and `get_variant_of`. After a successful
`add_variant (c, id, v)`, where `v` has the identifier `vid` and no entry
before the first entry for `id` holds a variant with that identifier,
`get_variant_of (c, vid)` returns `id`. -/
theorem add_variant_then_get_variant_of (env : GstStreams) (c : GstStreamCollection)
    (id vid : String) (v : GstStreamPtr) (pre : List CollectionStream)
    (e : CollectionStream) (post : List CollectionStream)
    (hc : c.streams = pre ++ e :: post)
    (hpre : ∀ p ∈ pre, p.stream_id ≠ some id) (he : e.stream_id = some id)
    (hok : (gst_stream_collection_add_variant env c (some id) v).1 = true)
    (hvid : gst_stream_get_stream_id env v = some vid)
    (hearlier : ∀ p ∈ pre, ∀ w ∈ p.variants,
      gst_stream_get_stream_id env w ≠ some vid) :
    gst_stream_collection_get_variant_of env
      (gst_stream_collection_add_variant env c (some id) v).2 (some vid) = some id := by
  have hv : v ≠ NULL := by
    intro h0
    simp [gst_stream_collection_add_variant, h0] at hok
  have hfound := add_variant_found env c id v pre e post hv hc hpre he
  by_cases ht : gst_stream_get_stream_type env e.stream = gst_stream_get_stream_type env v
  · simp only [ht, ne_eq, not_true_eq_false, if_false] at hfound
    rw [hfound]
    rw [get_variant_of_found env _ vid pre
      { e with variants := e.variants ++ [v], has_variant := true } post rfl hearlier
      ⟨v, by simp, hvid⟩]
    exact he
  · rw [hfound] at hok
    simp [ht] at hok

/-- Witness for C12: the unit test, where vstream1 is added as a variant of
vstream and `get_variant_of` of `vstream1` is `vstream`. -/
theorem add_variant_then_get_variant_of_witness :
    gst_stream_collection_get_variant_of testStreams
      (gst_stream_collection_add_variant testStreams testCollection
        (some "vstream") 4).2 (some "vstream1") = some "vstream" :=
  add_variant_then_get_variant_of testStreams testCollection "vstream" "vstream1" 4
    [{ stream := 1, stream_id := some "astream1", variants := [], has_variant := false },
     { stream := 2, stream_id := some "astream2", variants := [], has_variant := false }]
    { stream := 3, stream_id := some "vstream", variants := [], has_variant := false }
    [] (by decide) (by decide) (by decide) (by decide) (by decide) (by decide)


/-! ## Construction and the upstream id -/

/-- C13: for every optional string `u`, `new (u)` is an empty collection, with
size `0` and `get_stream` returning `NULL` at index `0` and at every other
index, and `get_upstream_id` returns `u` as given: the same string, or `NULL`
when none was given. -/
theorem new_is_empty_with_upstream_id (u : Option String) :
    gst_stream_collection_get_size (gst_stream_collection_new u) = 0 ∧
    gst_stream_collection_get_stream (gst_stream_collection_new u) 0 = NULL ∧
    (∀ i : Nat, gst_stream_collection_get_stream (gst_stream_collection_new u) i = NULL) ∧
    (gst_stream_collection_new u).streams = [] ∧
    gst_stream_collection_get_upstream_id (gst_stream_collection_new u) = u := by
  cases u <;>
    simp [gst_stream_collection_new, gst_stream_collection_set_upstream_id,
      gst_stream_collection_init, gst_stream_collection_get_size, g_queue_get_length,
      gst_stream_collection_get_stream, g_queue_peek_nth,
      gst_stream_collection_get_upstream_id]

theorem set_upstream_id_of_set (c : GstStreamCollection) (x : Option String)
    (h : c.upstream_id ≠ none) : gst_stream_collection_set_upstream_id c x = c := by
  simp [gst_stream_collection_set_upstream_id, h]

theorem add_stream_upstream_id (env : GstStreams) (c : GstStreamCollection)
    (s : GstStreamPtr) :
    (gst_stream_collection_add_stream env c s).2.upstream_id = c.upstream_id := by
  cases hs : GST_IS_STREAM env s with
  | false => rw [add_stream_invalid env c s hs]
  | true => rw [add_stream_valid env c s hs]

theorem add_variant_upstream_id (env : GstStreams) (c : GstStreamCollection)
    (id : Option String) (v : GstStreamPtr) :
    (gst_stream_collection_add_variant env c id v).2.upstream_id = c.upstream_id := by
  rcases add_variant_cases env c id v with hfail | ⟨_, _, _, _, _, _, _, _, _, _, hok⟩
  · rw [hfail]
  · rw [hok]

theorem apply_call_upstream_id (env : GstStreams) (c : GstStreamCollection)
    (u : String) (call : CollectionCall) (h : c.upstream_id = some u) :
    (apply_call env c call).upstream_id = some u := by
  cases call with
  | set_upstream_id x =>
    simp only [apply_call]
    rw [set_upstream_id_of_set c x (by rw [h]; simp)]
    exact h
  | add_stream s =>
    simp only [apply_call]
    rw [add_stream_upstream_id]; exact h
  | add_variant id v =>
    simp only [apply_call]
    rw [add_variant_upstream_id]; exact h

theorem apply_calls_upstream_id (env : GstStreams) (calls : List CollectionCall) :
    ∀ (c : GstStreamCollection) (u : String), c.upstream_id = some u →
      (apply_calls env c calls).upstream_id = some u := by
  induction calls with
  | nil => intro c u h; exact h
  | cons call rest ih =>
    intro c u h
    simp only [apply_calls, List.foldl_cons]
    exact ih (apply_call env c call) u (apply_call_upstream_id env c u call h)

/-- C14: the upstream id is write-once. For a collection constructed with the
id `u`, after any sequence of property sets, `add_stream` and `add_variant`
calls `get_upstream_id` still returns `u`; and on any collection that has an
upstream id, setting the upstream id to any value, `NULL` included, changes
nothing in the collection. -/
theorem upstream_id_write_once (env : GstStreams) (u : String)
    (calls : List CollectionCall) :
    gst_stream_collection_get_upstream_id
      (apply_calls env (gst_stream_collection_new (some u)) calls) = some u ∧
    (∀ x : Option String,
      gst_stream_collection_set_upstream_id
        (apply_calls env (gst_stream_collection_new (some u)) calls) x =
      apply_calls env (gst_stream_collection_new (some u)) calls) ∧
    (∀ (c : GstStreamCollection) (x : Option String), c.upstream_id ≠ none →
      gst_stream_collection_set_upstream_id c x = c) := by
  have hnew : (gst_stream_collection_new (some u)).upstream_id = some u := by
    simp [gst_stream_collection_new, gst_stream_collection_set_upstream_id,
      gst_stream_collection_init]
  have hall := apply_calls_upstream_id env calls _ u hnew
  refine ⟨hall, ?_, fun c x h => set_upstream_id_of_set c x h⟩
  intro x
  exact set_upstream_id_of_set _ x (by rw [hall]; simp)

/-- Witness for C14: on the unit test's collection, constructed with
`upstream-id`, an attempt to set another id and an attempt to clear it both
leave the collection as it is. -/
theorem upstream_id_write_once_witness :
    gst_stream_collection_set_upstream_id testCollection (some "other") = testCollection ∧
    gst_stream_collection_set_upstream_id testCollection none = testCollection ∧
    gst_stream_collection_get_upstream_id
      (apply_calls testStreams (gst_stream_collection_new (some "upstream-id"))
        [.add_stream 3, .set_upstream_id (some "other"), .add_variant (some "vstream") 4,
         .set_upstream_id none]) = some "upstream-id" :=
  ⟨(upstream_id_write_once testStreams "upstream-id" []).2.2 testCollection (some "other")
      (by decide),
   (upstream_id_write_once testStreams "upstream-id" []).2.2 testCollection none
      (by decide),
   (upstream_id_write_once testStreams "upstream-id"
      [.add_stream 3, .set_upstream_id (some "other"), .add_variant (some "vstream") 4,
       .set_upstream_id none]).1⟩


/-! ## No deduplication -/

theorem getElem?_not_first {α : Type} (pre : List α) (e x : α) (post : List α) (j : Nat)
    (hj : j ≠ pre.length) : (pre ++ x :: post)[j]? = (pre ++ e :: post)[j]? := by
  rcases Nat.lt_or_gt_of_ne hj with hlt | hgt
  · rw [List.getElem?_append_left hlt, List.getElem?_append_left hlt]
  · rw [List.getElem?_append_right (Nat.le_of_lt hgt),
      List.getElem?_append_right (Nat.le_of_lt hgt)]
    obtain ⟨k, hk⟩ : ∃ k, j - pre.length = k + 1 := ⟨j - pre.length - 1, by omega⟩
    rw [hk]
    rfl

theorem getElem?_second_of_two {α : Type} (l : List α) (a b : α) :
    (l ++ [a, b])[l.length + 1]? = some b := by
  rw [List.getElem?_append_right (by omega)]
  have : l.length + 1 - l.length = 1 := by omega
  rw [this]
  rfl

/-- An `add_variant` call never changes the second of two entries with the same
id at the tail of the queue. -/
theorem add_variant_keeps_second_of_two (env : GstStreams) (c2 : GstStreamCollection)
    (l : List CollectionStream) (e1 e2 : CollectionStream) (id : String)
    (hs : c2.streams = l ++ [e1, e2])
    (h1 : e1.stream_id = some id) (h2 : e2.stream_id = some id)
    (sid : Option String) (v : GstStreamPtr) :
    (gst_stream_collection_add_variant env c2 sid v).2.streams[l.length + 1]? =
      some e2 := by
  have hlast : c2.streams[l.length + 1]? = some e2 := by
    rw [hs]; exact getElem?_second_of_two l e1 e2
  have hmid : c2.streams[l.length]? = some e1 := by
    rw [hs]; exact getElem?_first l e1 [e2]
  rcases add_variant_cases env c2 sid v with hfail |
    ⟨x, pre, e, post, _, _, hq, hpre, he, _, hok⟩
  · rw [hfail]; exact hlast
  · rw [hok]
    have hne : l.length + 1 ≠ pre.length := by
      intro hlen
      have hE2 : c2.streams[pre.length]? = some e := by
        rw [hq]; exact getElem?_first pre e post
      rw [← hlen, hlast] at hE2
      have hex : some id = some x := by
        rw [← h2, Option.some.inj hE2, he]
      have hE1 : (pre ++ e :: post)[l.length]? = some e1 := by rw [← hq]; exact hmid
      rw [List.getElem?_append_left (by omega)] at hE1
      exact hpre e1 (List.getElem?_mem hE1) (by rw [h1, hex])
    show (pre ++ _ :: post)[l.length + 1]? = some e2
    rw [getElem?_not_first pre e _ post _ hne, ← hq]
    exact hlast


/-- C15, as the code has it: members are not deduplicated and the first match
wins. For valid streams `s1`, `s2` with the same identifier `id`, added in
that order to any collection `c` (giving `c1`, then `c2`): both calls return
`TRUE`, the size grows by two, the two new entries sit at the old size and the
position after it and give back `s1` and `s2`, and no `add_variant` call made
on `c2`, for any id and stream, changes the entry of `s2`. When no entry of `c` has that identifier, so that
`s1` is the first member with it, the lookups for `id` resolve to the entry of
`s1`: `add_variant` succeeds exactly for a non-null stream of the type of
`s1`, whatever the type of `s2`, and appends to the variants of the entry of
`s1`; and in every later state of the queue, whatever variants the entry of
`s1` has by then and whatever follows it, `get_variants` returns the variants
of that entry, `is_variant_for` tests membership in them, and `add_variant`
checks the type against `s1` and appends to them. -/
theorem duplicate_ids_first_match_wins (env : GstStreams) (c c1 c2 : GstStreamCollection)
    (id : String) (s1 s2 : GstStreamPtr)
    (h1 : GST_IS_STREAM env s1 = true) (h2 : GST_IS_STREAM env s2 = true)
    (hid1 : gst_stream_get_stream_id env s1 = some id)
    (hid2 : gst_stream_get_stream_id env s2 = some id)
    (hc1 : c1 = (gst_stream_collection_add_stream env c s1).2)
    (hc2 : c2 = (gst_stream_collection_add_stream env c1 s2).2) :
    (gst_stream_collection_add_stream env c s1).1 = true ∧
    (gst_stream_collection_add_stream env c1 s2).1 = true ∧
    gst_stream_collection_get_size c2 = gst_stream_collection_get_size c + 2 ∧
    c2.streams = c.streams ++
      [{ stream := s1, stream_id := some id, variants := [], has_variant := false },
       { stream := s2, stream_id := some id, variants := [], has_variant := false }] ∧
    gst_stream_collection_get_stream c2 (gst_stream_collection_get_size c) = s1 ∧
    gst_stream_collection_get_stream c2 (gst_stream_collection_get_size c + 1) = s2 ∧
    (∀ (sid : Option String) (v : GstStreamPtr),
      (gst_stream_collection_add_variant env c2 sid v).2.streams[
          gst_stream_collection_get_size c + 1]? =
        some { stream := s2, stream_id := some id, variants := [],
               has_variant := false }) ∧
    ((∀ e ∈ c.streams, e.stream_id ≠ some id) →
      (∀ v : GstStreamPtr,
        ((gst_stream_collection_add_variant env c2 (some id) v).1 = true ↔
          (v ≠ NULL ∧
            gst_stream_get_stream_type env s1 = gst_stream_get_stream_type env v)) ∧
        ((gst_stream_collection_add_variant env c2 (some id) v).1 = true →
          (gst_stream_collection_add_variant env c2 (some id) v).2.streams =
            c.streams ++
              [{ stream := s1, stream_id := some id, variants := [v],
                 has_variant := true },
               { stream := s2, stream_id := some id, variants := [],
                 has_variant := false }] ∧
          gst_stream_collection_get_variants
            (gst_stream_collection_add_variant env c2 (some id) v).2 (some id) = [v] ∧
          gst_stream_collection_is_variant_for
            (gst_stream_collection_add_variant env c2 (some id) v).2 v (some id) =
              true)) ∧
      (∀ (c3 : GstStreamCollection) (e1 e2 : CollectionStream)
          (rest : List CollectionStream),
        c3.streams = c.streams ++ e1 :: e2 :: rest →
        e1.stream = s1 → e1.stream_id = some id →
        gst_stream_collection_get_variants c3 (some id) = e1.variants ∧
        (∀ x : GstStreamPtr, x ≠ NULL →
          gst_stream_collection_is_variant_for c3 x (some id) =
            decide (x ∈ e1.variants)) ∧
        (∀ v : GstStreamPtr, v ≠ NULL →
          gst_stream_collection_add_variant env c3 (some id) v =
            if gst_stream_get_stream_type env s1 ≠ gst_stream_get_stream_type env v then
              (false, c3)
            else
              (true,
                { c3 with
                  streams := c.streams ++
                    { e1 with variants := e1.variants ++ [v], has_variant := true } ::
                      e2 :: rest })))) := by
  have hs : c2.streams = c.streams ++
      [{ stream := s1, stream_id := some id, variants := [], has_variant := false },
       { stream := s2, stream_id := some id, variants := [], has_variant := false }] := by
    rw [hc2, hc1, add_stream_valid env c s1 h1, add_stream_valid env _ s2 h2, hid1, hid2]
    simp
  have hsize : gst_stream_collection_get_size c = c.streams.length := rfl
  refine ⟨?_, ?_, ?_, hs, ?_, ?_, ?_, ?_⟩
  · rw [add_stream_valid env c s1 h1]
  · rw [add_stream_valid env c1 s2 h2]
  · simp [gst_stream_collection_get_size, g_queue_get_length, hs]
  · simp only [gst_stream_collection_get_stream, g_queue_peek_nth, hs, hsize]
    rw [getElem?_first c.streams _ [_]]
  · simp only [gst_stream_collection_get_stream, g_queue_peek_nth, hs, hsize]
    rw [getElem?_second_of_two]
  · intro sid v
    rw [hsize]
    exact add_variant_keeps_second_of_two env c2 c.streams _ _ id hs rfl rfl sid v
  · intro hfresh
    refine ⟨?_, ?_⟩
    swap
    · intro c3 e1 e2 rest hs3 hstream hid
      refine ⟨get_variants_found c3 id c.streams e1 (e2 :: rest) hs3 hfresh hid,
        fun x hx => is_variant_for_found c3 x id c.streams e1 (e2 :: rest) hx hs3 hfresh hid,
        fun v hv => ?_⟩
      rw [add_variant_found env c3 id v c.streams e1 (e2 :: rest) hv hs3 hfresh hid,
        hstream]
    intro v
    by_cases hv : v = NULL
    · simp [gst_stream_collection_add_variant, hv]
    · have hfound := add_variant_found env c2 id v c.streams
        { stream := s1, stream_id := some id, variants := [], has_variant := false }
        [{ stream := s2, stream_id := some id, variants := [], has_variant := false }]
        hv hs hfresh rfl
      rw [hfound]
      by_cases ht : gst_stream_get_stream_type env s1 = gst_stream_get_stream_type env v
      · simp only [ht, ne_eq, not_true_eq_false, if_false, hv, not_false_eq_true,
          and_self, true_iff, List.nil_append, forall_const, true_and]
        refine ⟨?_, ?_⟩
        · rw [get_variants_found _ id c.streams
            { stream := s1, stream_id := some id, variants := [v], has_variant := true }
            [{ stream := s2, stream_id := some id, variants := [], has_variant := false }]
            rfl hfresh rfl]
        · rw [is_variant_for_found _ v id c.streams
            { stream := s1, stream_id := some id, variants := [v], has_variant := true }
            [{ stream := s2, stream_id := some id, variants := [], has_variant := false }]
            hv rfl hfresh rfl]
          simp
      · simp [ht]


/-- Witness for C15 as amended: the audio stream `1` and the video stream `2`,
both named `dup`, added to a new collection. The audio variant `3` is accepted
and lands in the entry of stream `1`; the video variant `4`, of the type of
stream `2`, succeeds only if it has the type of stream `1`, which it has not;
and once the entry of stream `1` holds the variant `3`, `get_variants` for
`dup` returns its list. -/
theorem duplicate_ids_first_match_wins_witness :
    gst_stream_collection_get_size dupCollection = 0 + 2 ∧
    gst_stream_collection_get_stream dupCollection 0 = 1 ∧
    gst_stream_collection_get_stream dupCollection (0 + 1) = 2 ∧
    (gst_stream_collection_add_variant dupStreams dupCollection (some "dup") 3).2.streams =
      [] ++
        [{ stream := 1, stream_id := some "dup", variants := [3], has_variant := true },
         { stream := 2, stream_id := some "dup", variants := [], has_variant := false }] ∧
    ((gst_stream_collection_add_variant dupStreams dupCollection (some "dup") 4).1 = true ↔
      ((4 : GstStreamPtr) ≠ NULL ∧
        gst_stream_get_stream_type dupStreams 1 = gst_stream_get_stream_type dupStreams 4)) ∧
    gst_stream_collection_get_variants
      (gst_stream_collection_add_variant dupStreams dupCollection (some "dup") 3).2
      (some "dup") = [3] :=
  have h := duplicate_ids_first_match_wins dupStreams (gst_stream_collection_new none)
    (gst_stream_collection_add_stream dupStreams (gst_stream_collection_new none) 1).2
    dupCollection "dup" 1 2 (by decide) (by decide) (by decide) (by decide) rfl rfl
  ⟨h.2.2.1, h.2.2.2.2.1, h.2.2.2.2.2.1,
    (((h.2.2.2.2.2.2.2 (by decide)).1 3).2 (by decide)).1,
    ((h.2.2.2.2.2.2.2 (by decide)).1 4).1,
    ((h.2.2.2.2.2.2.2 (by decide)).2
      (gst_stream_collection_add_variant dupStreams dupCollection (some "dup") 3).2
      { stream := 1, stream_id := some "dup", variants := [3], has_variant := true }
      { stream := 2, stream_id := some "dup", variants := [], has_variant := false }
      [] (by decide) rfl rfl).1⟩

/-- C15, counterexample: the collection already holds the video stream `5`
named `dup` when the audio stream `1` and the video stream `2`, both named
`dup` too, are added in that order. Both calls succeed, yet the lookups for
`dup` do not resolve to the entry of stream `1`: the audio variant `3`, of the
type of stream `1`, is refused, so the type check is not made against stream
`1`; and the video variant `4` is accepted and lands in the entry of stream
`5`, while the entry of stream `1` stays without variants. -/
theorem duplicate_ids_earlier_entry_wins :
    (gst_stream_collection_add_stream dupStreamsEarlier
      (gst_stream_collection_add_stream dupStreamsEarlier
        (gst_stream_collection_new none) 5).2 1).1 = true ∧
    (gst_stream_collection_add_stream dupStreamsEarlier
      (gst_stream_collection_add_stream dupStreamsEarlier
        (gst_stream_collection_add_stream dupStreamsEarlier
          (gst_stream_collection_new none) 5).2 1).2 2).1 = true ∧
    gst_stream_get_stream_id dupStreamsEarlier 1 =
      gst_stream_get_stream_id dupStreamsEarlier 2 ∧
    gst_stream_collection_get_stream dupCollectionEarlier 1 = 1 ∧
    gst_stream_collection_get_stream dupCollectionEarlier 2 = 2 ∧
    gst_stream_get_stream_type dupStreamsEarlier 1 =
      gst_stream_get_stream_type dupStreamsEarlier 3 ∧
    (gst_stream_collection_add_variant dupStreamsEarlier dupCollectionEarlier
      (some "dup") 3).1 = false ∧
    ¬ ((gst_stream_collection_add_variant dupStreamsEarlier dupCollectionEarlier
        (some "dup") 3).1 = true ↔
      ((3 : GstStreamPtr) ≠ NULL ∧
        gst_stream_get_stream_type dupStreamsEarlier 1 =
          gst_stream_get_stream_type dupStreamsEarlier 3)) ∧
    (gst_stream_collection_add_variant dupStreamsEarlier dupCollectionEarlier
      (some "dup") 4).1 = true ∧
    (gst_stream_collection_add_variant dupStreamsEarlier dupCollectionEarlier
      (some "dup") 4).2.streams =
      [{ stream := 5, stream_id := some "dup", variants := [4], has_variant := true },
       { stream := 1, stream_id := some "dup", variants := [], has_variant := false },
       { stream := 2, stream_id := some "dup", variants := [], has_variant := false }] := by
  decide

/-- C16: variants are not deduplicated. For a known id and a non-null stream
`v` of the type of the first entry with that id, `add_variant (c, id, v)`
called twice returns `TRUE` both times, and `get_variants` for `id` is then
the former list followed by `v`, `v`: two elements longer, with two more
occurrences of the address `v`. -/
theorem add_variant_twice_keeps_both (env : GstStreams) (c c1 : GstStreamCollection)
    (id : String) (v : GstStreamPtr) (pre : List CollectionStream)
    (e : CollectionStream) (post : List CollectionStream) (hv : v ≠ NULL)
    (hc : c.streams = pre ++ e :: post)
    (hpre : ∀ p ∈ pre, p.stream_id ≠ some id) (he : e.stream_id = some id)
    (ht : gst_stream_get_stream_type env e.stream = gst_stream_get_stream_type env v)
    (hc1 : c1 = (gst_stream_collection_add_variant env c (some id) v).2) :
    (gst_stream_collection_add_variant env c (some id) v).1 = true ∧
    (gst_stream_collection_add_variant env c1 (some id) v).1 = true ∧
    gst_stream_collection_get_variants
        (gst_stream_collection_add_variant env c1 (some id) v).2 (some id) =
      gst_stream_collection_get_variants c (some id) ++ [v, v] ∧
    (gst_stream_collection_get_variants
        (gst_stream_collection_add_variant env c1 (some id) v).2 (some id)).length =
      (gst_stream_collection_get_variants c (some id)).length + 2 ∧
    (gst_stream_collection_get_variants
        (gst_stream_collection_add_variant env c1 (some id) v).2 (some id)).count v =
      (gst_stream_collection_get_variants c (some id)).count v + 2 := by
  have h0 := get_variants_found c id pre e post hc hpre he
  have hfirst := add_variant_found env c id v pre e post hv hc hpre he
  simp only [ht, ne_eq, not_true_eq_false, if_false] at hfirst
  have hs1 : c1.streams =
      pre ++ { e with variants := e.variants ++ [v], has_variant := true } :: post := by
    rw [hc1, hfirst]
  have hsecond := add_variant_found env c1 id v pre
    { e with variants := e.variants ++ [v], has_variant := true } post hv hs1 hpre he
  simp only [ht, ne_eq, not_true_eq_false, if_false] at hsecond
  have hlist : gst_stream_collection_get_variants
      (gst_stream_collection_add_variant env c1 (some id) v).2 (some id) =
      gst_stream_collection_get_variants c (some id) ++ [v, v] := by
    rw [hsecond, h0]
    rw [get_variants_found _ id pre
      { e with variants := e.variants ++ [v] ++ [v], has_variant := true } post rfl hpre he]
    simp
  refine ⟨by rw [hfirst], by rw [hsecond], hlist, ?_, ?_⟩
  · rw [hlist]; simp
  · rw [hlist]; simp [List.count_append]

/-- Witness for C16: vstream1 added twice as a variant of vstream in the unit
test's collection. -/
theorem add_variant_twice_keeps_both_witness :
    gst_stream_collection_get_variants
        (gst_stream_collection_add_variant testStreams
          (gst_stream_collection_add_variant testStreams testCollection
            (some "vstream") 4).2 (some "vstream") 4).2 (some "vstream") =
      gst_stream_collection_get_variants testCollection (some "vstream") ++ [4, 4] :=
  (add_variant_twice_keeps_both testStreams testCollection
    (gst_stream_collection_add_variant testStreams testCollection (some "vstream") 4).2
    "vstream" 4
    [{ stream := 1, stream_id := some "astream1", variants := [], has_variant := false },
     { stream := 2, stream_id := some "astream2", variants := [], has_variant := false }]
    { stream := 3, stream_id := some "vstream", variants := [], has_variant := false }
    [] (by decide) (by decide) (by decide) (by decide) (by decide) rfl).2.2.1


/-! ## Notification relay and teardown -/

theorem stream_notify_eq_replicate (c : GstStreamCollection) (s : GstStreamPtr)
    (x : String) :
    stream_notify c s x =
      List.replicate (c.notify_handlers.count s) (proxy_stream_notify_cb s x) := by
  unfold stream_notify
  induction c.notify_handlers with
  | nil => rfl
  | cons h rest ih =>
    by_cases hh : h = s
    · subst hh
      simp [List.filter_cons, List.replicate_succ, ih]
    · have hne : (h == s) = false := by simpa using hh
      simp [List.filter_cons, hh, List.count_cons, hne, ih]

/-- In a reachable collection the relay handlers are those of the top-level
entries, one per entry, in queue order. -/
theorem reachable_handlers (env : GstStreams) (c : GstStreamCollection)
    (h : Reachable env c) : c.notify_handlers = c.streams.map (fun e => e.stream) := by
  induction h with
  | new u =>
    cases u <;>
      simp [gst_stream_collection_new, gst_stream_collection_set_upstream_id,
        gst_stream_collection_init]
  | set_upstream_id c u _ ih =>
    unfold gst_stream_collection_set_upstream_id
    split
    · exact ih
    · cases u <;> exact ih
  | add_stream c s _ ih =>
    cases hs : GST_IS_STREAM env s with
    | false => rw [add_stream_invalid env c s hs]; exact ih
    | true => rw [add_stream_valid env c s hs]; simp [ih]
  | add_variant c id v _ ih =>
    rcases add_variant_cases env c id v with hfail |
      ⟨sid, pre, e0, post, _, _, hq, _, _, _, hok⟩
    · rw [hfail]; exact ih
    · rw [hok]
      simp only [ih, hq, List.map_append, List.map_cons]

theorem add_variant_handlers (env : GstStreams) (c : GstStreamCollection)
    (id : Option String) (v : GstStreamPtr) :
    (gst_stream_collection_add_variant env c id v).2.notify_handlers =
      c.notify_handlers := by
  rcases add_variant_cases env c id v with hfail | ⟨_, _, _, _, _, _, _, _, _, _, hok⟩
  · rw [hfail]
  · rw [hok]

theorem release_all_handlers (l : List CollectionStream) :
    ∀ c : GstStreamCollection,
      (l.foldl (fun c cstream => release_gst_stream cstream c) c).notify_handlers =
        c.notify_handlers.filter (fun h => decide (h ∉ l.map (fun e => e.stream))) := by
  induction l with
  | nil => intro c; simp
  | cons e rest ih =>
    intro c
    simp only [List.foldl_cons]
    rw [ih (release_gst_stream e c)]
    simp only [release_gst_stream, List.filter_filter, List.map_cons, List.mem_cons]
    apply List.filter_congr
    intro h _
    by_cases h1 : h = e.stream <;> by_cases h2 : h ∈ rest.map (fun e => e.stream) <;>
      simp [h1, h2]

/-- C18: variants are not wired into the relay. `add_variant` connects no
handler, and on a reachable collection a stream that is not a top-level
member, so one that entered only through `add_variant`, has no relay handler:
its `notify` emissions produce no `stream-notify` emission, before and after
it is added as a variant. -/
theorem variant_notify_not_relayed (env : GstStreams) (c : GstStreamCollection)
    (id : Option String) (v : GstStreamPtr) (x : String) :
    (gst_stream_collection_add_variant env c id v).2.notify_handlers =
      c.notify_handlers ∧
    (Reachable env c → (∀ e ∈ c.streams, e.stream ≠ v) →
      stream_notify c v x = [] ∧
      stream_notify (gst_stream_collection_add_variant env c id v).2 v x = []) := by
  refine ⟨add_variant_handlers env c id v, ?_⟩
  intro hr hnot
  have hcount : c.notify_handlers.count v = 0 := by
    rw [reachable_handlers env c hr, List.count_eq_zero]
    intro hmem
    obtain ⟨e, he, hev⟩ := List.mem_map.mp hmem
    exact hnot e he hev
  constructor
  · rw [stream_notify_eq_replicate, hcount]; rfl
  · rw [stream_notify_eq_replicate, add_variant_handlers, hcount]; rfl

/-- Witness for C18: vstream1 is added as a variant of vstream in the unit
test's collection; a change of its `caps` is not relayed. -/
theorem variant_notify_not_relayed_witness :
    (gst_stream_collection_add_variant testStreams testCollection
      (some "vstream") 4).1 = true ∧
    stream_notify testCollection 4 "caps" = [] ∧
    stream_notify
      (gst_stream_collection_add_variant testStreams testCollection
        (some "vstream") 4).2 4 "caps" = [] :=
  ⟨by decide,
    (variant_notify_not_relayed testStreams testCollection (some "vstream") 4 "caps").2
      (Reachable.add_stream _ 3 (Reachable.add_stream _ 2 (Reachable.add_stream _ 1
        (Reachable.new (some "upstream-id"))))) (by decide)⟩

/-- C19: teardown detaches the relay. After `dispose` of a reachable collection
the queue is empty, no relay handler of the collection is left on any stream,
and no `notify` emission of any stream, for any property, produces a
`stream-notify` emission. -/
theorem dispose_detaches_relay (env : GstStreams) (c : GstStreamCollection)
    (hr : Reachable env c) :
    (gst_stream_collection_dispose c).streams = [] ∧
    gst_stream_collection_get_size (gst_stream_collection_dispose c) = 0 ∧
    (gst_stream_collection_dispose c).notify_handlers = [] ∧
    (∀ (s : GstStreamPtr) (x : String),
      stream_notify (gst_stream_collection_dispose c) s x = []) := by
  have hh : (gst_stream_collection_dispose c).notify_handlers = [] := by
    simp only [gst_stream_collection_dispose]
    rw [release_all_handlers, List.filter_eq_nil_iff]
    intro h hmem
    simp only at hmem
    rw [reachable_handlers env c hr] at hmem
    simp only [decide_eq_true_eq, not_not]
    exact hmem
  refine ⟨rfl, rfl, hh, ?_⟩
  intro s x
  simp [stream_notify, hh]

/-- Witness for C19: the unit test's collection with its variants, disposed;
a later change of `caps` on the former member vstream is not relayed. -/
theorem dispose_detaches_relay_witness :
    stream_notify testCollectionVariants 3 "caps" ≠ [] ∧
    (gst_stream_collection_dispose testCollectionVariants).streams = [] ∧
    stream_notify (gst_stream_collection_dispose testCollectionVariants) 3 "caps" = [] :=
  have h := dispose_detaches_relay testStreams testCollectionVariants
    (Reachable.add_variant _ (some "vstream") 5 (Reachable.add_variant _ (some "vstream") 4
      (Reachable.add_stream _ 3 (Reachable.add_stream _ 2 (Reachable.add_stream _ 1
        (Reachable.new (some "upstream-id")))))))
  ⟨by decide, h.1, h.2.2.2 3 "caps"⟩

/-- C20: `add_stream` with a null or otherwise invalid stream returns `FALSE`
and leaves the collection as it was: same entries, same size, no relay handler
added. It returns `FALSE` in this case only. -/
theorem add_stream_invalid_fails (env : GstStreams) (c : GstStreamCollection)
    (s : GstStreamPtr) :
    GST_IS_STREAM env NULL = false ∧
    (GST_IS_STREAM env s = false →
      (gst_stream_collection_add_stream env c s).1 = false ∧
      (gst_stream_collection_add_stream env c s).2 = c ∧
      gst_stream_collection_get_size (gst_stream_collection_add_stream env c s).2 =
        gst_stream_collection_get_size c ∧
      (gst_stream_collection_add_stream env c s).2.notify_handlers =
        c.notify_handlers) ∧
    ((gst_stream_collection_add_stream env c s).1 = false ↔
      GST_IS_STREAM env s = false) := by
  refine ⟨by simp [GST_IS_STREAM], ?_, ?_⟩
  · intro hs
    rw [add_stream_invalid env c s hs]
    exact ⟨rfl, rfl, rfl, rfl⟩
  · cases hs : GST_IS_STREAM env s with
    | false => rw [add_stream_invalid env c s hs]
    | true => rw [add_stream_valid env c s hs]

/-- Witness for C20: the null pointer, and the address `9` at which there is no
stream, offered to the unit test's collection. -/
theorem add_stream_invalid_fails_witness :
    ((gst_stream_collection_add_stream testStreams testCollection NULL).1 = false ∧
      (gst_stream_collection_add_stream testStreams testCollection NULL).2 =
        testCollection) ∧
    ((gst_stream_collection_add_stream testStreams testCollection 9).1 = false ∧
      (gst_stream_collection_add_stream testStreams testCollection 9).2 =
        testCollection) :=
  have h0 := (add_stream_invalid_fails testStreams testCollection NULL).2.1 (by decide)
  have h9 := (add_stream_invalid_fails testStreams testCollection 9).2.1 (by decide)
  ⟨⟨h0.1, h0.2.1⟩, ⟨h9.1, h9.2.1⟩⟩


/-! ## Invariants of reachable collections -/

theorem apply_calls_append_one (env : GstStreams) (c : GstStreamCollection)
    (calls : List CollectionCall) (call : CollectionCall) :
    apply_calls env c (calls ++ [call]) = apply_call env (apply_calls env c calls) call := by
  simp [apply_calls, List.foldl_append]

theorem set_upstream_id_streams (c : GstStreamCollection) (x : Option String) :
    (gst_stream_collection_set_upstream_id c x).streams = c.streams := by
  unfold gst_stream_collection_set_upstream_id
  split
  · rfl
  · cases x <;> rfl

theorem new_streams (u : Option String) : (gst_stream_collection_new u).streams = [] := by
  cases u <;>
    simp [gst_stream_collection_new, gst_stream_collection_set_upstream_id,
      gst_stream_collection_init]

/-- C21: in a collection built from `new` by any sequence of calls, an entry has
variants only if an earlier `add_variant` call made with that entry's stream
id returned `TRUE`; and the entry that `add_stream` creates has no variants. -/
theorem variants_only_after_add_variant (env : GstStreams) (u : Option String) :
    (∀ (calls : List CollectionCall),
      ∀ e ∈ (apply_calls env (gst_stream_collection_new u) calls).streams,
      e.variants ≠ [] →
      ∃ (before : List CollectionCall) (v : GstStreamPtr) (after : List CollectionCall),
        calls = before ++ CollectionCall.add_variant e.stream_id v :: after ∧
        (gst_stream_collection_add_variant env
          (apply_calls env (gst_stream_collection_new u) before) e.stream_id v).1 = true) ∧
    (∀ (c : GstStreamCollection) (s : GstStreamPtr), GST_IS_STREAM env s = true →
      ∃ e, (gst_stream_collection_add_stream env c s).2.streams = c.streams ++ [e] ∧
        e.stream = s ∧ e.variants = [] ∧ e.has_variant = false) := by
  constructor
  · intro calls
    induction calls using List.reverseRecOn with
    | nil =>
      intro e he
      simp [apply_calls, new_streams] at he
    | append_singleton calls call ih =>
      intro e he hne
      rw [apply_calls_append_one] at he
      have extend : e ∈ (apply_calls env (gst_stream_collection_new u) calls).streams →
          ∃ (before : List CollectionCall) (v : GstStreamPtr) (after : List CollectionCall),
            calls ++ [call] = before ++ CollectionCall.add_variant e.stream_id v :: after ∧
            (gst_stream_collection_add_variant env
              (apply_calls env (gst_stream_collection_new u) before) e.stream_id v).1 =
                true := by
        intro hmem
        obtain ⟨before, v, after, hcalls, hok⟩ := ih e hmem hne
        exact ⟨before, v, after ++ [call], by rw [hcalls]; simp, hok⟩
      cases call with
      | set_upstream_id x =>
        simp only [apply_call, set_upstream_id_streams] at he
        exact extend he
      | add_stream s =>
        simp only [apply_call] at he
        cases hs : GST_IS_STREAM env s with
        | false =>
          rw [add_stream_invalid env _ s hs] at he
          exact extend he
        | true =>
          rw [add_stream_valid env _ s hs] at he
          simp only [List.mem_append, List.mem_singleton] at he
          rcases he with he | rfl
          · exact extend he
          · exact absurd rfl hne
      | add_variant id v =>
        simp only [apply_call] at he
        rcases add_variant_cases env (apply_calls env (gst_stream_collection_new u) calls)
          id v with hfail | ⟨sid, pre, e0, post, hid, _, hq, _, he0, _, hok⟩
        · rw [hfail] at he
          exact extend he
        · have hsucc : (gst_stream_collection_add_variant env
              (apply_calls env (gst_stream_collection_new u) calls) id v).1 = true := by
            rw [hok]
          rw [hok] at he
          simp only [List.mem_append, List.mem_cons] at he
          rcases he with he | rfl | he
          · exact extend (by rw [hq]; simp [he])
          · refine ⟨calls, v, [], ?_, ?_⟩
            · simp only [he0, hid]
            · simp only [he0]
              rw [← hid]; exact hsucc
          · exact extend (by rw [hq]; simp [he])
  · intro c s hs
    rw [add_stream_valid env c s hs]
    exact ⟨_, rfl, rfl, rfl, rfl⟩

/-- Witness for C21: in the unit test, the entry of vstream has variants after
the calls, and the call that added vstream1 is the third of them. -/
theorem variants_only_after_add_variant_witness :
    ∃ (before : List CollectionCall) (v : GstStreamPtr) (after : List CollectionCall),
      [CollectionCall.add_stream 1, CollectionCall.add_stream 3,
        CollectionCall.add_variant (some "vstream") 4,
        CollectionCall.add_variant (some "vstream") 5] =
        before ++ CollectionCall.add_variant (some "vstream") v :: after ∧
      (gst_stream_collection_add_variant testStreams
        (apply_calls testStreams (gst_stream_collection_new (some "upstream-id")) before)
        (some "vstream") v).1 = true :=
  (variants_only_after_add_variant testStreams (some "upstream-id")).1
    [CollectionCall.add_stream 1, CollectionCall.add_stream 3,
      CollectionCall.add_variant (some "vstream") 4,
      CollectionCall.add_variant (some "vstream") 5]
    { stream := 3, stream_id := some "vstream", variants := [4, 5], has_variant := true }
    (by decide) (by decide)

/-- The type of every variant is the type of the stream of its entry. -/
theorem reachable_variant_types (env : GstStreams) (c : GstStreamCollection)
    (h : Reachable env c) :
    ∀ e ∈ c.streams, ∀ w ∈ e.variants,
      gst_stream_get_stream_type env w = gst_stream_get_stream_type env e.stream := by
  induction h with
  | new u =>
    intro e he
    rw [new_streams] at he
    simp at he
  | set_upstream_id c u _ ih =>
    intro e he
    rw [set_upstream_id_streams] at he
    exact ih e he
  | add_stream c s _ ih =>
    intro e he
    cases hs : GST_IS_STREAM env s with
    | false =>
      rw [add_stream_invalid env c s hs] at he
      exact ih e he
    | true =>
      rw [add_stream_valid env c s hs] at he
      simp only [List.mem_append, List.mem_singleton] at he
      rcases he with he | rfl
      · exact ih e he
      · intro w hw; simp at hw
  | add_variant c id v _ ih =>
    intro e he
    rcases add_variant_cases env c id v with hfail |
      ⟨sid, pre, e0, post, _, _, hq, _, _, ht, hok⟩
    · rw [hfail] at he
      exact ih e he
    · rw [hok] at he
      simp only [List.mem_append, List.mem_cons] at he
      rcases he with he | rfl | he
      · exact ih e (by rw [hq]; simp [he])
      · intro w hw
        simp only [List.mem_append, List.mem_singleton] at hw
        rcases hw with hw | rfl
        · exact ih e0 (by rw [hq]; simp) w hw
        · exact ht.symm
      · exact ih e (by rw [hq]; simp [he])

/-- C22: type agreement. In every collection reachable from `new` by
`add_stream` and `add_variant` calls, the stream types being fixed, each
stream in an entry's variants has the stream type of that entry's top-level
stream. -/
theorem variants_share_entry_type (env : GstStreams) (c : GstStreamCollection)
    (h : Reachable env c) (e : CollectionStream) (he : e ∈ c.streams)
    (w : GstStreamPtr) (hw : w ∈ e.variants) :
    gst_stream_get_stream_type env w = gst_stream_get_stream_type env e.stream :=
  reachable_variant_types env c h e he w hw

/-- Witness for C22: vstream2, a variant of vstream in the unit test's
collection, has the type of vstream. -/
theorem variants_share_entry_type_witness :
    gst_stream_get_stream_type testStreams 5 = gst_stream_get_stream_type testStreams 3 :=
  variants_share_entry_type testStreams testCollectionVariants
    (Reachable.add_variant _ (some "vstream") 5 (Reachable.add_variant _ (some "vstream") 4
      (Reachable.add_stream _ 3 (Reachable.add_stream _ 2 (Reachable.add_stream _ 1
        (Reachable.new (some "upstream-id")))))))
    { stream := 3, stream_id := some "vstream", variants := [4, 5], has_variant := true }
    (by decide) 5 (by decide)


/-- The cached id of every entry is the identifier of its stream. -/
theorem reachable_cached_id (env : GstStreams) (c : GstStreamCollection)
    (h : Reachable env c) :
    ∀ e ∈ c.streams, e.stream_id = gst_stream_get_stream_id env e.stream := by
  induction h with
  | new u =>
    intro e he
    rw [new_streams] at he
    simp at he
  | set_upstream_id c u _ ih =>
    intro e he
    rw [set_upstream_id_streams] at he
    exact ih e he
  | add_stream c s _ ih =>
    intro e he
    cases hs : GST_IS_STREAM env s with
    | false =>
      rw [add_stream_invalid env c s hs] at he
      exact ih e he
    | true =>
      rw [add_stream_valid env c s hs] at he
      simp only [List.mem_append, List.mem_singleton] at he
      rcases he with he | rfl
      · exact ih e he
      · rfl
  | add_variant c id v _ ih =>
    intro e he
    rcases add_variant_cases env c id v with hfail |
      ⟨sid, pre, e0, post, _, _, hq, _, _, _, hok⟩
    · rw [hfail] at he
      exact ih e he
    · rw [hok] at he
      simp only [List.mem_append, List.mem_cons] at he
      rcases he with he | rfl | he
      · exact ih e (by rw [hq]; simp [he])
      · exact ih e0 (by rw [hq]; simp)
      · exact ih e (by rw [hq]; simp [he])

theorem g_queue_find_custom_eq_some_iff {α β : Type} (queue : List α) (data : β)
    (func : α → β → Int) (i : Nat) :
    g_queue_find_custom queue data func = some i ↔
      ∃ a, queue[i]? = some a ∧ func a data = 0 ∧
        ∀ j b, j < i → queue[j]? = some b → func b data ≠ 0 := by
  constructor
  · intro h
    obtain ⟨pre, e, post, hq, hlen, hpre, he⟩ := g_queue_find_custom_some _ _ _ i h
    subst hlen
    refine ⟨e, by rw [hq]; exact getElem?_first pre e post, he, ?_⟩
    intro j b hj hb
    rw [hq, List.getElem?_append_left hj] at hb
    exact hpre b (List.getElem?_mem hb)
  · rintro ⟨a, ha, hz, hbefore⟩
    have hi : i < queue.length := by
      rcases Nat.lt_or_ge i queue.length with h | h
      · exact h
      · rw [List.getElem?_eq_none h] at ha; simp at ha
    have hq : queue = queue.take i ++ a :: queue.drop (i + 1) := by
      have h1 : queue.drop i = a :: queue.drop (i + 1) := by
        rw [List.drop_eq_getElem_cons hi]
        congr 1
        rw [List.getElem?_eq_getElem hi] at ha
        exact Option.some.inj ha
      rw [← h1, List.take_append_drop]
    have hlen : (queue.take i).length = i := by
      rw [List.length_take]; omega
    have hfirst := g_queue_find_custom_first (queue.take i) a (queue.drop (i + 1)) data func
      (by
        intro p hp
        obtain ⟨j, hj, hjp⟩ := List.getElem_of_mem hp
        have hji : j < i := by rw [hlen] at hj; exact hj
        apply hbefore j p hji
        rw [List.getElem_take] at hjp
        rw [← hjp]
        exact List.getElem?_eq_getElem _) hz
    rw [← hq, hlen] at hfirst
    exact hfirst

/-- C23: the cached identifier. In every reachable collection each entry's
cached stream id is the identifier of its stream, so the lookup by identifier
agrees with positional access: the search for `id` finds the entry at index
`i` exactly when `i` is the smallest index below the size at which
`get_stream` returns a stream with the identifier `id`, and it finds nothing
exactly when there is no such index. -/
theorem lookup_agrees_with_positions (env : GstStreams) (c : GstStreamCollection)
    (h : Reachable env c) (id : String) :
    (∀ e ∈ c.streams, e.stream_id = gst_stream_get_stream_id env e.stream) ∧
    (∀ i : Nat,
      g_queue_find_custom c.streams (some id) _compare_cstream = some i ↔
        (i < gst_stream_collection_get_size c ∧
          gst_stream_get_stream_id env (gst_stream_collection_get_stream c i) = some id ∧
          ∀ j, j < i →
            gst_stream_get_stream_id env (gst_stream_collection_get_stream c j) ≠
              some id)) ∧
    (g_queue_find_custom c.streams (some id) _compare_cstream = none ↔
      ∀ i, i < gst_stream_collection_get_size c →
        gst_stream_get_stream_id env (gst_stream_collection_get_stream c i) ≠ some id) := by
  have hcached := reachable_cached_id env c h
  have hat : ∀ i (hi : i < c.streams.length),
      gst_stream_get_stream_id env (gst_stream_collection_get_stream c i) =
        (c.streams[i]).stream_id := by
    intro i hi
    simp only [gst_stream_collection_get_stream, g_queue_peek_nth,
      List.getElem?_eq_getElem hi]
    exact (hcached _ (List.getElem_mem hi)).symm
  refine ⟨hcached, ?_, ?_⟩
  · intro i
    rw [g_queue_find_custom_eq_some_iff]
    simp only [gst_stream_collection_get_size, g_queue_get_length]
    constructor
    · rintro ⟨a, ha, hz, hbefore⟩
      have hi : i < c.streams.length := by
        rcases Nat.lt_or_ge i c.streams.length with h | h
        · exact h
        · rw [List.getElem?_eq_none h] at ha; simp at ha
      have hai : c.streams[i] = a := by
        rw [List.getElem?_eq_getElem hi] at ha; exact Option.some.inj ha
      refine ⟨hi, ?_, ?_⟩
      · rw [hat i hi, hai]
        exact (compare_cstream_eq_zero_iff a (some id)).mp hz
      · intro j hj hid
        have hjl : j < c.streams.length := Nat.lt_trans hj hi
        rw [hat j hjl] at hid
        exact hbefore j _ hj (List.getElem?_eq_getElem hjl)
          ((compare_cstream_eq_zero_iff _ (some id)).mpr hid)
    · rintro ⟨hi, hid, hbefore⟩
      refine ⟨c.streams[i], List.getElem?_eq_getElem hi, ?_, ?_⟩
      · rw [hat i hi] at hid
        exact (compare_cstream_eq_zero_iff _ (some id)).mpr hid
      · intro j b hj hb hz
        have hjl : j < c.streams.length := Nat.lt_trans hj hi
        rw [List.getElem?_eq_getElem hjl] at hb
        have hbj : c.streams[j] = b := Option.some.inj hb
        apply hbefore j hj
        rw [hat j hjl, hbj]
        exact (compare_cstream_eq_zero_iff b (some id)).mp hz
  · rw [g_queue_find_custom_eq_none]
    simp only [gst_stream_collection_get_size, g_queue_get_length]
    constructor
    · intro hall i hi hid
      rw [hat i hi] at hid
      exact hall _ (List.getElem_mem hi) ((compare_cstream_eq_zero_iff _ (some id)).mpr hid)
    · intro hall a ha hz
      obtain ⟨i, hi, hia⟩ := List.getElem_of_mem ha
      apply hall i hi
      rw [hat i hi, hia]
      exact (compare_cstream_eq_zero_iff a (some id)).mp hz

/-- Witness for C23: in the unit test's collection the search for `vstream`
finds index `2`, the only index whose stream has that identifier. -/
theorem lookup_agrees_with_positions_witness :
    g_queue_find_custom testCollectionVariants.streams (some "vstream") _compare_cstream =
      some 2 :=
  ((lookup_agrees_with_positions testStreams testCollectionVariants
    (Reachable.add_variant _ (some "vstream") 5 (Reachable.add_variant _ (some "vstream") 4
      (Reachable.add_stream _ 3 (Reachable.add_stream _ 2 (Reachable.add_stream _ 1
        (Reachable.new (some "upstream-id")))))))
    "vstream").2.1 2).mpr (by decide)


/-! ## Growth and frame properties -/

/-- C24: monotonic growth. For every collection and every call, successful or
not, the sequence of top-level streams before the call is an initial segment
of the sequence after it, and every entry is still at its index afterwards,
with the same stream and cached id and with its former variants as an initial
segment of its variants: nothing is removed, reordered or deduplicated. -/
theorem collection_grows_monotonically (env : GstStreams) (c : GstStreamCollection)
    (call : CollectionCall) :
    c.streams.map (fun e => e.stream) <+:
      (apply_call env c call).streams.map (fun e => e.stream) ∧
    (∀ (i : Nat) (e : CollectionStream), c.streams[i]? = some e →
      ∃ e2, (apply_call env c call).streams[i]? = some e2 ∧ e2.stream = e.stream ∧
        e2.stream_id = e.stream_id ∧ e.variants <+: e2.variants) := by
  have same : ∀ c2 : GstStreamCollection, c2.streams = c.streams →
      c.streams.map (fun e => e.stream) <+: c2.streams.map (fun e => e.stream) ∧
      (∀ (i : Nat) (e : CollectionStream), c.streams[i]? = some e →
        ∃ e2, c2.streams[i]? = some e2 ∧ e2.stream = e.stream ∧
          e2.stream_id = e.stream_id ∧ e.variants <+: e2.variants) := by
    intro c2 h2
    rw [h2]
    exact ⟨List.prefix_refl _, fun i e he => ⟨e, he, rfl, rfl, List.prefix_refl _⟩⟩
  cases call with
  | set_upstream_id x => exact same _ (set_upstream_id_streams c x)
  | add_stream s =>
    simp only [apply_call]
    cases hs : GST_IS_STREAM env s with
    | false => rw [add_stream_invalid env c s hs]; exact same c rfl
    | true =>
      rw [add_stream_valid env c s hs]
      constructor
      · simp only [List.map_append]
        exact List.prefix_append _ _
      · intro i e he
        have hi : i < c.streams.length := by
          rcases Nat.lt_or_ge i c.streams.length with h | h
          · exact h
          · rw [List.getElem?_eq_none h] at he; simp at he
        exact ⟨e, by simp only [List.getElem?_append_left hi]; exact he, rfl, rfl,
          List.prefix_refl _⟩
  | add_variant id v =>
    simp only [apply_call]
    rcases add_variant_cases env c id v with hfail |
      ⟨sid, pre, e0, post, _, _, hq, _, _, _, hok⟩
    · rw [hfail]; exact same c rfl
    · rw [hok]
      constructor
      · simp only [hq, List.map_append, List.map_cons]
        exact List.prefix_refl _
      · intro i e he
        by_cases hi : i = pre.length
        · subst hi
          rw [hq, getElem?_first] at he
          have hee : e0 = e := Option.some.inj he
          subst hee
          exact ⟨_, getElem?_first pre _ post, rfl, rfl, List.prefix_append _ _⟩
        · refine ⟨e, ?_, rfl, rfl, List.prefix_refl _⟩
          show (pre ++ _ :: post)[i]? = some e
          rw [getElem?_not_first pre e0 _ post i hi, ← hq]
          exact he

/-- Witness for C24: adding vstream2 as a second variant of vstream keeps the
entry at index `2`, with `[4]` an initial segment of its variants `[4, 5]`. -/
theorem collection_grows_monotonically_witness :
    ∃ e2, (apply_call testStreams
        (gst_stream_collection_add_variant testStreams testCollection
          (some "vstream") 4).2
        (CollectionCall.add_variant (some "vstream") 5)).streams[2]? = some e2 ∧
      e2.stream = 3 ∧ e2.stream_id = some "vstream" ∧ [4] <+: e2.variants :=
  (collection_grows_monotonically testStreams
    (gst_stream_collection_add_variant testStreams testCollection (some "vstream") 4).2
    (CollectionCall.add_variant (some "vstream") 5)).2 2
    { stream := 3, stream_id := some "vstream", variants := [4], has_variant := true }
    (by decide)

/-- In a reachable collection an entry that has variants is the first entry
with its stream id. -/
theorem reachable_variants_on_first (env : GstStreams) (c : GstStreamCollection)
    (h : Reachable env c) :
    ∀ (i j : Nat) (e p : CollectionStream), j < i → c.streams[i]? = some e →
      c.streams[j]? = some p → e.variants ≠ [] → p.stream_id ≠ e.stream_id := by
  induction h with
  | new u =>
    intro i j e p _ he
    rw [new_streams] at he
    simp at he
  | set_upstream_id c u _ ih =>
    intro i j e p hji he hp
    rw [set_upstream_id_streams] at he hp
    exact ih i j e p hji he hp
  | add_stream c s _ ih =>
    intro i j e p hji he hp hne
    cases hs : GST_IS_STREAM env s with
    | false =>
      rw [add_stream_invalid env c s hs] at he hp
      exact ih i j e p hji he hp hne
    | true =>
      rw [add_stream_valid env c s hs] at he hp
      simp only at he hp
      rcases Nat.lt_or_ge i c.streams.length with hi | hi
      · rw [List.getElem?_append_left hi] at he
        rw [List.getElem?_append_left (Nat.lt_trans hji hi)] at hp
        exact ih i j e p hji he hp hne
      · rw [List.getElem?_append_right hi] at he
        rcases Nat.eq_zero_or_pos (i - c.streams.length) with h0 | hpos
        · rw [h0] at he
          simp only [List.getElem?_cons_zero, Option.some.injEq] at he
          subst he
          exact absurd rfl hne
        · obtain ⟨k, hk⟩ : ∃ k, i - c.streams.length = k + 1 :=
            ⟨i - c.streams.length - 1, by omega⟩
          rw [hk] at he
          simp at he
  | add_variant c id v _ ih =>
    intro i j e p hji he hp hne
    rcases add_variant_cases env c id v with hfail |
      ⟨sid, pre, e0, post, _, _, hq, hpre, he0, _, hok⟩
    · rw [hfail] at he hp
      exact ih i j e p hji he hp hne
    · rw [hok] at he hp
      simp only at he hp
      by_cases hi : i = pre.length
      · subst hi
        rw [getElem?_first] at he
        rw [List.getElem?_append_left hji] at hp
        have hes : e.stream_id = some sid := by
          rw [← Option.some.inj he]; exact he0
        rw [hes]
        exact hpre p (List.getElem?_mem hp)
      · rw [getElem?_not_first pre e0 _ post i hi, ← hq] at he
        by_cases hj : j = pre.length
        · subst hj
          rw [getElem?_first] at hp
          have hp0 : c.streams[pre.length]? = some e0 := by
            rw [hq]; exact getElem?_first pre e0 post
          have := ih i pre.length e e0 hji he hp0 hne
          rw [← Option.some.inj hp]
          exact this
        · rw [getElem?_not_first pre e0 _ post j hj, ← hq] at hp
          exact ih i j e p hji he hp hne

/-- C25: reverse and forward lookups agree. In every reachable collection, if
`get_variant_of (c, vid)` returns the parent id `p`, then `get_variants (c, p)`
contains a stream whose identifier is `vid`, also when several entries have
the id `p`. -/
theorem get_variant_of_agrees_with_get_variants (env : GstStreams)
    (c : GstStreamCollection) (h : Reachable env c) (vid p : String)
    (hof : gst_stream_collection_get_variant_of env c (some vid) = some p) :
    ∃ w ∈ gst_stream_collection_get_variants c (some p),
      gst_stream_get_stream_id env w = some vid := by
  cases hf : g_queue_find_custom c.streams (some vid) (_compare_variant_id env) with
  | none =>
    simp [gst_stream_collection_get_variant_of, hf] at hof
  | some i =>
    obtain ⟨pre, e, post, hq, hlen, _, he⟩ := g_queue_find_custom_some _ _ _ i hf
    have hget : c.streams[pre.length]? = some e := by
      rw [hq]; exact getElem?_first pre e post
    have hid : e.stream_id = some p := by
      simp only [gst_stream_collection_get_variant_of, hf, ← hlen, hget] at hof
      simpa using hof
    obtain ⟨w, hw, hwid⟩ := (compare_variant_id_eq_zero_iff env e vid).mp he
    have hne : e.variants ≠ [] := List.ne_nil_of_mem hw
    have hfirst : ∀ q ∈ pre, q.stream_id ≠ some p := by
      intro q hq2
      obtain ⟨j, hj, hjq⟩ := List.getElem_of_mem hq2
      have hqj : c.streams[j]? = some q := by
        rw [hq, List.getElem?_append_left hj, List.getElem?_eq_getElem hj, hjq]
      rw [← hid]
      exact reachable_variants_on_first env c h pre.length j e q hj hget hqj hne
    rw [get_variants_found c p pre e post hq hfirst hid]
    exact ⟨w, hw, hwid⟩

/-- Witness for C25: `vstream1` has the parent `vstream` in the unit test's
collection, and the variants of `vstream` contain a stream named `vstream1`. -/
theorem get_variant_of_agrees_with_get_variants_witness :
    ∃ w ∈ gst_stream_collection_get_variants testCollectionVariants (some "vstream"),
      gst_stream_get_stream_id testStreams w = some "vstream1" :=
  get_variant_of_agrees_with_get_variants testStreams testCollectionVariants
    (Reachable.add_variant _ (some "vstream") 5 (Reachable.add_variant _ (some "vstream") 4
      (Reachable.add_stream _ 3 (Reachable.add_stream _ 2 (Reachable.add_stream _ 1
        (Reachable.new (some "upstream-id")))))))
    "vstream1" "vstream" (by decide)


theorem g_queue_find_custom_append_one {α β : Type} (queue : List α) (a : α) (data : β)
    (func : α → β → Int) :
    g_queue_find_custom (queue ++ [a]) data func =
      match g_queue_find_custom queue data func with
      | some i => some i
      | none => if func a data = 0 then some queue.length else none := by
  induction queue with
  | nil =>
    by_cases h : func a data = 0 <;> simp [g_queue_find_custom, h]
  | cons b rest ih =>
    by_cases hb : func b data = 0
    · simp [g_queue_find_custom, hb]
    · have h1 : g_queue_find_custom (b :: (rest ++ [a])) data func =
          (g_queue_find_custom (rest ++ [a]) data func).map (· + 1) := by
        simp [g_queue_find_custom, hb]
      have h2 : g_queue_find_custom (b :: rest) data func =
          (g_queue_find_custom rest data func).map (· + 1) := by
        simp [g_queue_find_custom, hb]
      rw [List.cons_append, h1, h2, ih]
      cases g_queue_find_custom rest data func with
      | some i => rfl
      | none =>
        by_cases h : func a data = 0 <;> simp [h]

theorem g_queue_find_custom_lt {α β : Type} (queue : List α) (data : β)
    (func : α → β → Int) (i : Nat) (h : g_queue_find_custom queue data func = some i) :
    i < queue.length := by
  obtain ⟨a, ha, _⟩ := (g_queue_find_custom_eq_some_iff queue data func i).mp h
  rcases Nat.lt_or_ge i queue.length with hlt | hge
  · exact hlt
  · rw [List.getElem?_eq_none hge] at ha; simp at ha

/-- C26: `add_stream` changes no variant query. For every collection `c`,
stream `s`, id `id` and candidate `x`, the results of `get_variants (id)`,
`is_variant_for (x, id)` and `get_variant_of (id)` on the collection after
`add_stream (c, s)` are the results on `c`, also when `id` is the identifier
of `s`. -/
theorem add_stream_keeps_variant_queries (env : GstStreams) (c : GstStreamCollection)
    (s : GstStreamPtr) (id : Option String) (x : GstStreamPtr) :
    gst_stream_collection_get_variants (gst_stream_collection_add_stream env c s).2 id =
      gst_stream_collection_get_variants c id ∧
    gst_stream_collection_is_variant_for
        (gst_stream_collection_add_stream env c s).2 x id =
      gst_stream_collection_is_variant_for c x id ∧
    gst_stream_collection_get_variant_of env
        (gst_stream_collection_add_stream env c s).2 id =
      gst_stream_collection_get_variant_of env c id := by
  cases hs : GST_IS_STREAM env s with
  | false =>
    rw [add_stream_invalid env c s hs]
    exact ⟨rfl, rfl, rfl⟩
  | true =>
    rw [add_stream_valid env c s hs]
    cases id with
    | none =>
      simp [gst_stream_collection_get_variants, gst_stream_collection_is_variant_for,
        gst_stream_collection_get_variant_of]
    | some sid =>
      have hnovar : _compare_variant_id env
          { stream := s, stream_id := gst_stream_get_stream_id env s, variants := [],
            has_variant := false } (some sid) ≠ 0 := by
        simp [_compare_variant_id]
      refine ⟨?_, ?_, ?_⟩
      · simp only [gst_stream_collection_get_variants, g_queue_find_custom_append_one]
        cases hf : g_queue_find_custom c.streams (some sid) _compare_cstream with
        | some i =>
          have hi := g_queue_find_custom_lt _ _ _ i hf
          simp [List.getElem?_append_left hi]
        | none =>
          by_cases hm : _compare_cstream
              { stream := s, stream_id := gst_stream_get_stream_id env s, variants := [],
                has_variant := false } (some sid) = 0
          · simp [hm]
          · simp [hm]
      · simp only [gst_stream_collection_is_variant_for, g_queue_find_custom_append_one]
        cases hf : g_queue_find_custom c.streams (some sid) _compare_cstream with
        | some i =>
          have hi := g_queue_find_custom_lt _ _ _ i hf
          simp [List.getElem?_append_left hi]
        | none =>
          by_cases hm : _compare_cstream
              { stream := s, stream_id := gst_stream_get_stream_id env s, variants := [],
                has_variant := false } (some sid) = 0
          · simp [hm]
          · simp [hm]
      · simp only [gst_stream_collection_get_variant_of, g_queue_find_custom_append_one]
        cases hf : g_queue_find_custom c.streams (some sid) (_compare_variant_id env) with
        | some i =>
          have hi := g_queue_find_custom_lt _ _ _ i hf
          simp [List.getElem?_append_left hi]
        | none =>
          simp [hnovar]

theorem g_queue_find_custom_congr {α β : Type} (data : β) (func : α → β → Int) :
    ∀ (l1 l2 : List α),
      l1.map (fun a => func a data) = l2.map (fun a => func a data) →
      g_queue_find_custom l1 data func = g_queue_find_custom l2 data func := by
  intro l1
  induction l1 with
  | nil =>
    intro l2 h
    cases l2 with
    | nil => rfl
    | cons b l2 => simp at h
  | cons a l1 ih =>
    intro l2 h
    cases l2 with
    | nil => simp at h
    | cons b l2 =>
      simp only [List.map_cons, List.cons.injEq] at h
      simp only [g_queue_find_custom, h.1, ih l2 h.2]

/-- C27: `add_variant` touches only the addressed identifier. After a successful
`add_variant (c, id, v)`, for every id other than `id` and every stream `x`,
`get_variants` and `is_variant_for` give what they gave before. -/
theorem add_variant_keeps_other_ids (env : GstStreams) (c : GstStreamCollection)
    (id : Option String) (v : GstStreamPtr)
    (hok : (gst_stream_collection_add_variant env c id v).1 = true)
    (other : Option String) (hother : other ≠ id) (x : GstStreamPtr) :
    gst_stream_collection_get_variants
        (gst_stream_collection_add_variant env c id v).2 other =
      gst_stream_collection_get_variants c other ∧
    gst_stream_collection_is_variant_for
        (gst_stream_collection_add_variant env c id v).2 x other =
      gst_stream_collection_is_variant_for c x other := by
  rcases add_variant_cases env c id v with hfail |
    ⟨sid, pre, e, post, hid, _, hq, _, he, _, hres⟩
  · rw [hfail] at hok; simp at hok
  · rw [hres]
    have hfind : g_queue_find_custom
        (pre ++ { e with variants := e.variants ++ [v], has_variant := true } :: post)
        other _compare_cstream =
        g_queue_find_custom c.streams other _compare_cstream := by
      rw [hq]
      apply g_queue_find_custom_congr
      simp [_compare_cstream]
    have hentry : ∀ i, g_queue_find_custom c.streams other _compare_cstream = some i →
        (pre ++ { e with variants := e.variants ++ [v], has_variant := true } :: post)[i]? =
          c.streams[i]? := by
      intro i hi
      have hne : i ≠ pre.length := by
        intro hlen
        obtain ⟨a, ha, hz, _⟩ := (g_queue_find_custom_eq_some_iff _ _ _ i).mp hi
        rw [hlen, hq, getElem?_first] at ha
        have hae : e = a := Option.some.inj ha
        have := (compare_cstream_eq_zero_iff a other).mp hz
        rw [← hae, he] at this
        exact hother (by rw [hid, this])
      rw [getElem?_not_first pre e _ post i hne, ← hq]
    constructor
    · simp only [gst_stream_collection_get_variants, hfind]
      cases hf : g_queue_find_custom c.streams other _compare_cstream with
      | none => rfl
      | some i => simp only [hentry i hf]
    · simp only [gst_stream_collection_is_variant_for, hfind]
      cases hf : g_queue_find_custom c.streams other _compare_cstream with
      | none => rfl
      | some i => simp only [hentry i hf]

/-- Witness for C27: adding vstream1 as a variant of vstream in the unit test's
collection leaves the queries for `astream1` as they were. -/
theorem add_variant_keeps_other_ids_witness :
    gst_stream_collection_get_variants
        (gst_stream_collection_add_variant testStreams testCollection
          (some "vstream") 4).2 (some "astream1") =
      gst_stream_collection_get_variants testCollection (some "astream1") ∧
    gst_stream_collection_is_variant_for
        (gst_stream_collection_add_variant testStreams testCollection
          (some "vstream") 4).2 4 (some "astream1") =
      gst_stream_collection_is_variant_for testCollection 4 (some "astream1") :=
  add_variant_keeps_other_ids testStreams testCollection (some "vstream") 4 (by decide)
    (some "astream1") (by decide) 4


theorem split_pieces_last (d : Char) :
    ∀ l : List Char, ∃ (init : List (List Char)) (last : List Char),
      split_pieces d l = init ++ [last] ∧ d ∉ last ∧
      (init = [] → l = last) ∧ (init ≠ [] → ∃ dir, l = dir ++ d :: last) := by
  intro l
  induction l with
  | nil => exact ⟨[], [], rfl, by simp, fun _ => rfl, fun h => absurd rfl h⟩
  | cons ch rest ih =>
    obtain ⟨init, last, hsplit, hlast, hnone, hsome⟩ := ih
    by_cases hch : ch = d
    · refine ⟨[] :: init, last, by simp [split_pieces, hch, hsplit], hlast,
        fun h => by simp at h, fun _ => ?_⟩
      by_cases hinit : init = []
      · exact ⟨[], by simp [hch, hnone hinit]⟩
      · obtain ⟨dir, hdir⟩ := hsome hinit
        exact ⟨ch :: dir, by simp [hdir]⟩
    · cases init with
      | nil =>
        refine ⟨[], ch :: last, ?_, ?_, fun _ => ?_, fun h => absurd rfl h⟩
        · simp only [split_pieces, hch, if_false, hsplit, List.nil_append]
        · simp only [List.mem_cons, not_or]
          exact ⟨fun h => hch h.symm, hlast⟩
        · rw [hnone rfl]
      | cons p ps =>
        refine ⟨(ch :: p) :: ps, last, ?_, hlast, fun h => by simp at h, fun _ => ?_⟩
        · simp only [split_pieces, hch, if_false, hsplit, List.cons_append]
        · obtain ⟨dir, hdir⟩ := hsome (by simp)
          exact ⟨ch :: dir, by simp [hdir]⟩

/-- For a path that is not empty the index `split_length - 1` is a position of
the vector, and the piece read there is the text after the last `/`, the whole
path when it has no `/`. -/
theorem syslog_file_name_of_nonempty_path (file : String) (h : file.data ≠ []) :
    0 ≤ gst_sys_debug_log_index file ∧
    gst_sys_debug_log_index file < g_strv_length (g_strsplit file '/') ∧
    ∃ name : String, gst_sys_debug_log_file_name file = some name ∧
      '/' ∉ name.data ∧
      (file.data = name.data ∨ ∃ dir, file.data = dir ++ '/' :: name.data) := by
  obtain ⟨init, last, hsplit, hlast, hnone, hsome⟩ := split_pieces_last '/' file.data
  have hvec : g_strsplit file '/' = init.map String.mk ++ [String.mk last] := by
    simp [g_strsplit, h, hsplit]
  have hidx : gst_sys_debug_log_index file = (init.length : Int) := by
    simp [gst_sys_debug_log_index, g_strv_length, hvec]
  refine ⟨by rw [hidx]; exact Int.ofNat_nonneg _, ?_, String.mk last, ?_, hlast, ?_⟩
  · rw [hidx]; simp [g_strv_length, hvec]
  · simp only [gst_sys_debug_log_file_name, hidx, hvec]
    have hget := getElem?_first (init.map String.mk) (String.mk last) []
    rw [List.length_map] at hget
    simp only [Int.ofNat_nonneg, if_true, Int.toNat_ofNat]
    exact hget
  · by_cases hinit : init = []
    · exact Or.inl (hnone hinit)
    · exact Or.inr (hsome hinit)

/-- C29, at the empty path: `g_strsplit` gives the empty vector, so
`split_length` is `0`, the index `split_length - 1` is `-1`, which is not a
position of the vector, and no file name is selected: the claim that the
index is within bounds also for the empty path fails there. -/
theorem syslog_file_name_empty_path_out_of_bounds :
    g_strsplit "" '/' = [] ∧
    g_strv_length (g_strsplit "" '/') = 0 ∧
    gst_sys_debug_log_index "" = -1 ∧
    ¬ (0 ≤ gst_sys_debug_log_index "" ∧
        gst_sys_debug_log_index "" < g_strv_length (g_strsplit "" '/')) ∧
    gst_sys_debug_log_file_name "" = none := by
  decide

end Gst
